import Mathlib

/-!
Verification of the merchant-transaction dashboard (src/streamlit_app.py).

The dashboard loads an uploaded CSV with pandas, coerces the two numeric
columns, derives a location column, computes headline metrics on the full
dataframe, filters the dataframe by slider/multiselect criteria, renders
grouped aggregations, and offers the filtered rows as a CSV download.

The embedding below models a pandas DataFrame as a header (list of column
names) together with a list of rows, each row a list of cells.  A cell is a
string, a rational number, or NaN (missing).  Rationals stand in for the
float64 values pandas produces; every numeric value the program manipulates
comes from decimal literals in the CSV, where this is exact.  Byte-level CSV
quoting/escaping is abstracted away: a Csv value is already split into a
header and string records, which is the level at which the program's claims
(schema, row sets, cell values) live.  pandas `to_numeric(errors='coerce')`
is modelled by a decimal parser (optional sign, digits, optional fractional
part); scientific notation and surrounding whitespace, which no claim
exercises, are not modelled.
-/

set_option maxHeartbeats 1000000

namespace Dashboard

/-- A cell of a DataFrame: a string value, a numeric value, or NaN. -/
inductive Cell where
  | str : String → Cell
  | num : Rat → Cell
  | na : Cell
deriving DecidableEq

/-- A CSV file, already split into a header line and data records. -/
structure Csv where
  header : List String
  records : List (List String)
deriving DecidableEq

/-- A pandas DataFrame: named columns over a list of rows. -/
structure Frame where
  header : List String
  rows : List (List Cell)
deriving DecidableEq

/-! Decimal parsing, modelling pandas `to_numeric(errors='coerce')`. -/

/-- Is the character a decimal digit. -/
def isDigitC (c : Char) : Bool := decide ('0' ≤ c) && decide (c ≤ '9')

/-- Numeric value of a digit character. -/
def digitVal (c : Char) : Nat := c.toNat - 48

/-- Value of a big-endian digit string. -/
def foldDigits (cs : List Char) : Nat := cs.foldl (fun a c => a * 10 + digitVal c) 0

/-- All characters are decimal digits. -/
def allDigits (cs : List Char) : Bool := cs.all isDigitC

/-- The rational denoted by sign, integer digits value i, fraction digits
value f over k fractional places. -/
def mkDec (neg : Bool) (i f k : Nat) : Rat :=
  mkRat (if neg then -(i * 10 ^ k + f : Int) else (i * 10 ^ k + f : Int)) (10 ^ k)

/-- Strip an optional leading sign, returning the sign and the rest. -/
def splitSign (cs : List Char) : Bool × List Char :=
  match cs with
  | [] => (false, [])
  | c :: t =>
      if c = '-' then (true, t)
      else if c = '+' then (false, t)
      else (false, c :: t)

/-- Parse the unsigned part of a decimal literal: digits, optionally a '.'
and fraction digits (at least one digit overall). -/
def parseParts (neg : Bool) (cs : List Char) : Option Rat :=
  match cs.dropWhile (fun c => c ≠ '.') with
  | [] =>
      if allDigits (cs.takeWhile (fun c => c ≠ '.')) &&
          !(cs.takeWhile (fun c => c ≠ '.')).isEmpty then
        some (mkDec neg (foldDigits (cs.takeWhile (fun c => c ≠ '.'))) 0 0)
      else none
  | _ :: frac =>
      if allDigits (cs.takeWhile (fun c => c ≠ '.')) && allDigits frac &&
          !((cs.takeWhile (fun c => c ≠ '.')).isEmpty && frac.isEmpty) then
        some (mkDec neg (foldDigits (cs.takeWhile (fun c => c ≠ '.')))
          (foldDigits frac) frac.length)
      else none

/-- Parse a decimal number the way pandas `to_numeric` accepts plain decimal
literals: optional sign, digits, optional '.' and fraction digits.  Returns
none on anything else (pandas then coerces the cell to NaN). -/
def parseNum (s : String) : Option Rat :=
  parseParts (splitSign s.data).1 (splitSign s.data).2

/-! Decimal printing, modelling how pandas `to_csv` writes the float values
that arose from decimal literals. -/

/-- The decimal digit character for n (n intended below 10). -/
def digitChar : Nat → Char
  | 0 => '0' | 1 => '1' | 2 => '2' | 3 => '3' | 4 => '4'
  | 5 => '5' | 6 => '6' | 7 => '7' | 8 => '8' | _ => '9'

/-- Big-endian decimal digits, with explicit fuel (structural recursion, so
that concrete values reduce). -/
def digitsAux : Nat → Nat → List Char
  | 0, _ => []
  | fuel + 1, n =>
      if n < 10 then [digitChar n]
      else digitsAux fuel (n / 10) ++ [digitChar (n % 10)]

/-- Big-endian decimal digits of a natural number. -/
def digitsOf (n : Nat) : List Char := digitsAux (n + 1) n

/-- Left-pad a digit string with zeros to length k. -/
def padZeros (k : Nat) (cs : List Char) : List Char :=
  List.replicate (k - cs.length) '0' ++ cs

/-- Print a rational with decimal denominator as a decimal literal (sign,
integer part, '.' and exactly j fraction digits for the least adequate j).
Only rationals whose denominator divides a power of 10 occur in cells; the
fallback is never reached for them. -/
def formatRat (q : Rat) : String :=
  match (List.range (q.den + 1)).find? (fun j => 10 ^ j % q.den == 0) with
  | some j =>
      let N : Nat := q.num.natAbs * (10 ^ j / q.den)
      String.mk
        ((if q.num < 0 then ['-'] else [])
          ++ digitsOf (N / 10 ^ j)
          ++ (if j = 0 then [] else '.' :: padZeros j (digitsOf (N % 10 ^ j))))
  | none => ""

/-! DataFrame primitives. -/

/-- Index of the first column with the given name, as pandas column lookup. -/
def findCol : List String → String → Option Nat
  | [], _ => none
  | h :: t, n => if h = n then some 0 else (findCol t n).map (· + 1)

/-- The cell of row r in the named column (NaN when the column is absent;
the program only reads columns that its loader guarantees to exist). -/
def Frame.cellAt (f : Frame) (r : List Cell) (name : String) : Cell :=
  match findCol f.header name with
  | some j => r.getD j .na
  | none => .na

/-- pandas read_csv: every field enters as a string cell. -/
def read_csv (c : Csv) : Frame :=
  ⟨c.header, c.records.map (fun r => r.map Cell.str)⟩

/-- Coerce one cell to numeric, as to_numeric(errors='coerce'). -/
def cellToNumeric : Cell → Cell
  | .str s => match parseNum s with | some q => .num q | none => .na
  | .num q => .num q
  | .na => .na

/-- df[col] = pd.to_numeric(df[col], errors='coerce'): fails (KeyError)
when the column is absent, otherwise coerces every cell of the column. -/
def toNumericCol (f : Frame) (name : String) : Option Frame :=
  (findCol f.header name).map (fun j =>
    ⟨f.header, f.rows.map (fun r => r.set j (cellToNumeric (r.getD j .na)))⟩)

/-- Is the character a regex word character (for the boundary in the
location pattern). -/
def wordChar (c : Char) : Bool := c.isAlpha || c.isDigit || decide (c = '_')

/-- Is the character an uppercase ASCII letter. -/
def upperAZ (c : Char) : Bool := decide ('A' ≤ c) && decide (c ≤ 'Z')

/-- The trailing-uppercase-word extraction of the location regex: the string
matches when it ends in a nonempty run of uppercase letters preceded by a
word boundary; the captured group is that run. -/
def extractLoc (s : String) : Option String :=
  let rcs := s.data.reverse
  let run := rcs.takeWhile upperAZ
  if run.isEmpty then none
  else match rcs.dropWhile upperAZ with
    | [] => some (String.mk run.reverse)
    | c :: _ => if wordChar c then none else some (String.mk run.reverse)

/-- str.extract of the location pattern on one cell: NaN on no match and on
non-string cells. -/
def strExtractCell : Cell → Cell
  | .str s => match extractLoc s with | some t => .str t | none => .na
  | _ => .na

/-- df[name] = values: replace the column when present, append it
otherwise. -/
def Frame.setCol (f : Frame) (name : String) (vals : List Cell) : Frame :=
  match findCol f.header name with
  | some j => ⟨f.header, f.rows.zipWith (fun r v => r.set j v) vals⟩
  | none => ⟨f.header ++ [name], f.rows.zipWith (fun r v => r ++ [v]) vals⟩

/-- df[name] as a list of cells (none on a missing column, as KeyError). -/
def Frame.getCol (f : Frame) (name : String) : Option (List Cell) :=
  (findCol f.header name).map (fun j => f.rows.map (fun r => r.getD j .na))

/-- load_data of streamlit_app.py: read the CSV, coerce occurrences and
total_amount to numeric, and derive the location column from merchant_name.
Returns none exactly when pandas would raise a KeyError (the load-time
failure the spec calls MalformedInputError). -/
def load_data (c : Csv) : Option Frame :=
  (toNumericCol (read_csv c) "occurrences").bind fun df1 =>
    (toNumericCol df1 "total_amount").bind fun df2 =>
      (df2.getCol "merchant_name").map fun mcol =>
        df2.setCol "location" (mcol.map strExtractCell)

/-! Headline metrics (lines 36 to 40 of the source), computed on the full
dataframe. -/

/-- The numeric value of a cell, none for NaN and strings. -/
def numOf : Cell → Option Rat
  | .num q => some q
  | _ => none

/-- The string value of a cell, none for NaN and numbers. -/
def strOf : Cell → Option String
  | .str s => some s
  | _ => none

/-- The cells of the named column, one per row. -/
def Frame.colCells (f : Frame) (name : String) : List Cell :=
  f.rows.map (fun r => f.cellAt r name)

/-- The non-missing numeric values of the named column. -/
def Frame.colNums (f : Frame) (name : String) : List Rat :=
  (f.colCells name).filterMap numOf

/-- df['occurrences'].sum(): NaN-skipping sum, 0 on empty. -/
def total_transactions (f : Frame) : Rat := (f.colNums "occurrences").sum

/-- df['total_amount'].sum(): NaN-skipping sum, 0 on empty. -/
def total_amount (f : Frame) : Rat := (f.colNums "total_amount").sum

/-- df['total_amount'].max(): none models the NaN pandas returns when no
non-missing value exists. -/
def max_transaction (f : Frame) : Option Rat := (f.colNums "total_amount").max?

/-- df['masked_card_no'].nunique(): count of distinct non-missing values. -/
def unique_cards (f : Frame) : Nat :=
  ((f.colCells "masked_card_no").filterMap strOf).dedup.length

/-- Distinct keys in pandas groupby iteration order (groupby sorts keys). -/
def sortedKeys (l : List String) : List String :=
  List.insertionSort (fun a b => a ≤ b) l.dedup

/-- The group keys of df.groupby('merchant_name'). -/
def merchantKeys (f : Frame) : List String :=
  sortedKeys ((f.colCells "merchant_name").filterMap strOf)

/-- The NaN-skipping sum of total_amount over the rows of one merchant
group. -/
def groupSumAmount (f : Frame) (k : String) : Rat :=
  ((f.rows.filter (fun r => decide (f.cellAt r "merchant_name" = Cell.str k))).map
    (fun r => (numOf (f.cellAt r "total_amount")).getD 0)).sum

/-- df.groupby('merchant_name')['total_amount'].sum().idxmax(): the first
group key (in sorted key order) with maximal group sum.  The error value
records the ValueError idxmax raises on an empty series. -/
def top_merchant (f : Frame) : Except String String :=
  match merchantKeys f with
  | [] => .error "ValueError: attempt to get argmax of an empty sequence"
  | k :: ks => .ok (ks.foldl (fun best k2 =>
      if groupSumAmount f best < groupSumAmount f k2 then k2 else best) k)

/-! The filter engine (lines 62 to 71 of the source). -/

/-- The user-adjustable filter criteria: merchant and device multiselects,
the amount-range slider (integer endpoints) and the minimum-occurrences
slider. -/
structure Criteria where
  merchants : List String
  devices : List String
  lo : Int
  hi : Int
  minOcc : Int
deriving DecidableEq

/-- series.between(lo, hi) on one cell: inclusive on both bounds, false on
NaN. -/
def betweenCell (c : Cell) (lo hi : Int) : Bool :=
  match c with
  | .num q => decide ((lo : Rat) ≤ q) && decide (q ≤ (hi : Rat))
  | _ => false

/-- series >= m on one cell: false on NaN. -/
def geCell (c : Cell) (m : Int) : Bool :=
  match c with
  | .num q => decide ((m : Rat) ≤ q)
  | _ => false

/-- series.isin(sel) on one cell: membership of a string cell in the
selection, false on NaN. -/
def isinCell (c : Cell) (sel : List String) : Bool :=
  match c with
  | .str s => sel.contains s
  | _ => false

/-- Lines 63 to 66: keep rows whose total_amount lies in the slider range
and whose occurrences meet the slider threshold. -/
def rangeStep (f : Frame) (lo hi minOcc : Int) : Frame :=
  ⟨f.header, f.rows.filter (fun r =>
    betweenCell (f.cellAt r "total_amount") lo hi &&
      geCell (f.cellAt r "occurrences") minOcc)⟩

/-- Lines 68 to 69: the merchant multiselect step, skipped when the
selection is empty (Python truthiness of the empty list). -/
def merchantStep (f : Frame) (sel : List String) : Frame :=
  if sel.isEmpty then f
  else ⟨f.header, f.rows.filter (fun r => isinCell (f.cellAt r "merchant_name") sel)⟩

/-- Lines 70 to 71: the device multiselect step, skipped when the selection
is empty. -/
def deviceStep (f : Frame) (sel : List String) : Frame :=
  if sel.isEmpty then f
  else ⟨f.header, f.rows.filter (fun r => isinCell (f.cellAt r "device_name") sel)⟩

/-- filtered_df: the three filter stages in source order. -/
def filter_df (f : Frame) (c : Criteria) : Frame :=
  deviceStep (merchantStep (rangeStep f c.lo c.hi c.minOcc) c.merchants) c.devices

/-- The amount-range mask of line 64 applied on its own:
df[df['total_amount'].between(lo, hi)]. -/
def amountFilter (f : Frame) (lo hi : Int) : Frame :=
  ⟨f.header, f.rows.filter (fun r => betweenCell (f.cellAt r "total_amount") lo hi)⟩

/-- Python int() on a rational: truncation toward zero (as applied to the
slider endpoints on lines 53 to 55). -/
def pyInt (q : Rat) : Int := if 0 ≤ q then q.floor else q.ceil

/-- df['total_amount'].min(): NaN-skipping minimum. -/
def Frame.colMin (f : Frame) (name : String) : Option Rat := (f.colNums name).min?

/-- df['total_amount'].max(): NaN-skipping maximum. -/
def Frame.colMax (f : Frame) (name : String) : Option Rat := (f.colNums name).max?

/-- The default value of the amount-range slider: (int(min), int(max)) of
the total_amount column; none when the column has no numeric value (then
int(nan) would raise). -/
def defaultAmountRange (f : Frame) : Option (Int × Int) :=
  match f.colMin "total_amount", f.colMax "total_amount" with
  | some a, some b => some (pyInt a, pyInt b)
  | _, _ => none

/-! Group/rank aggregation (lines 139 to 142 of the source). -/

/-- DataFrame.nlargest(n, column): the rows sorted descending by the key
with ties kept in original order (keep='first'), truncated to n. -/
def nlargestBy {α : Type} (key : α → Rat) (n : Nat) (l : List α) : List α :=
  (List.insertionSort (fun a b => key b ≤ key a) l).take n

/-- The group keys of df.groupby('masked_card_no'). -/
def cardKeys (f : Frame) : List String :=
  sortedKeys ((f.colCells "masked_card_no").filterMap strOf)

/-- groupby('masked_card_no').agg(total_usage, total_spent): per-card sums
of occurrences and total_amount, in groupby key order. -/
def groupCards (f : Frame) : List (String × Rat × Rat) :=
  (cardKeys f).map (fun k =>
    let g := f.rows.filter (fun r => decide (f.cellAt r "masked_card_no" = Cell.str k))
    (k, (g.map (fun r => (numOf (f.cellAt r "occurrences")).getD 0)).sum,
      (g.map (fun r => (numOf (f.cellAt r "total_amount")).getD 0)).sum))

/-- card_stats: the top 15 cards by total_spent. -/
def card_stats (f : Frame) : List (String × Rat × Rat) :=
  nlargestBy (fun t => t.2.2) 15 (groupCards f)

/-! The export (line 193) and the dashboard run. -/

/-- How to_csv writes one cell: strings verbatim, numbers as decimal
literals, NaN as the empty field. -/
def cellToString : Cell → String
  | .str s => s
  | .num q => formatRat q
  | .na => ""

/-- filtered_df.to_csv(index=False): same header, stringified cells. -/
def to_csv (f : Frame) : Csv :=
  ⟨f.header, f.rows.map (fun r => r.map cellToString)⟩

/-- The five headline metric values of lines 36 to 40. -/
structure Metrics where
  tt : Rat
  ta : Rat
  mx : Option Rat
  tm : Except String String
  uc : Nat

/-- The headline metric cards, computed from the full dataframe. -/
def headlineMetrics (f : Frame) : Metrics :=
  ⟨total_transactions f, total_amount f, max_transaction f, top_merchant f,
    unique_cards f⟩

/-- One dashboard run on a loaded dataframe under given filter criteria:
the headline metrics and the filtered view. -/
def runDashboard (f : Frame) (c : Criteria) : Metrics × Frame :=
  (headlineMetrics f, filter_df f c)

/-! Helper lemmas about column lookup and the loader. -/

theorem findCol_isSome : ∀ (h : List String) (n : String),
    (findCol h n).isSome = true ↔ n ∈ h
  | [], n => by simp [findCol]
  | a :: t, n => by
    by_cases hc : a = n
    · subst hc; simp [findCol]
    · simp only [findCol, if_neg hc, List.mem_cons]
      cases hft : findCol t n with
      | none =>
          have hnt : ¬n ∈ t := by rw [← findCol_isSome t n, hft]; simp
          have hna : ¬n = a := fun e => hc e.symm
          simp [hnt, hna]
      | some j =>
          have hnt : n ∈ t := (findCol_isSome t n).mp (by rw [hft]; rfl)
          simp [hnt]

theorem findCol_getElem : ∀ (h : List String) (n : String) (j : Nat),
    findCol h n = some j → h[j]? = some n
  | [], n, j => by simp [findCol]
  | a :: t, n, j => by
    by_cases hc : a = n
    · subst hc
      simp only [findCol, if_pos rfl]
      rintro ⟨⟩
      simp
    · simp only [findCol, if_neg hc]
      intro hj
      obtain ⟨j0, hj0, rfl⟩ := Option.map_eq_some'.mp hj
      simpa using findCol_getElem t n j0 hj0

theorem findCol_inj {h : List String} {n1 n2 : String} {j : Nat}
    (h1 : findCol h n1 = some j) (h2 : findCol h n2 = some j) : n1 = n2 := by
  have e1 := findCol_getElem h n1 j h1
  have e2 := findCol_getElem h n2 j h2
  rw [e1] at e2
  exact (Option.some_inj.mp e2)

theorem findCol_append_not_mem : ∀ (h : List String) (n : String), n ∉ h →
    findCol (h ++ [n]) n = some h.length
  | [], n, _ => by simp [findCol]
  | a :: t, n, hn => by
    have ha : a ≠ n := fun e => hn (by simp [e])
    have ht : n ∉ t := fun e => hn (by simp [e])
    show findCol (a :: (t ++ [n])) n = some (t.length + 1)
    simp only [findCol, if_neg ha, findCol_append_not_mem t n ht, Option.map_some']

theorem toNumericCol_some {f g : Frame} {n : String}
    (h : toNumericCol f n = some g) :
    ∃ j, findCol f.header n = some j ∧
      g = ⟨f.header, f.rows.map (fun r => r.set j (cellToNumeric (r.getD j Cell.na)))⟩ := by
  unfold toNumericCol at h
  cases hj : findCol f.header n with
  | none => rw [hj] at h; exact absurd h (by simp)
  | some j =>
    rw [hj] at h
    exact ⟨j, rfl, (Option.some_inj.mp h).symm⟩

theorem getCol_some {f : Frame} {n : String} {col : List Cell}
    (h : f.getCol n = some col) :
    ∃ j, findCol f.header n = some j ∧ col = f.rows.map (fun r => r.getD j Cell.na) := by
  unfold Frame.getCol at h
  cases hj : findCol f.header n with
  | none => rw [hj] at h; exact absurd h (by simp)
  | some j =>
    rw [hj] at h
    exact ⟨j, rfl, (Option.some_inj.mp h).symm⟩

theorem load_data_some_parts {c : Csv} {f : Frame} (h : load_data c = some f) :
    ∃ jo ja jm, findCol c.header "occurrences" = some jo ∧
      findCol c.header "total_amount" = some ja ∧
      findCol c.header "merchant_name" = some jm ∧
      ∃ df2 : Frame, df2.header = c.header ∧
        f = df2.setCol "location"
          ((df2.rows.map (fun r => r.getD jm Cell.na)).map strExtractCell) := by
  unfold load_data at h
  cases h1 : toNumericCol (read_csv c) "occurrences" with
  | none => rw [h1] at h; exact absurd h (by simp)
  | some df1 =>
    rw [h1] at h
    simp only [Option.bind_eq_bind, Option.some_bind] at h
    cases h2 : toNumericCol df1 "total_amount" with
    | none => rw [h2] at h; exact absurd h (by simp)
    | some df2 =>
      rw [h2] at h
      simp only [Option.some_bind] at h
      cases h3 : df2.getCol "merchant_name" with
      | none => rw [h3] at h; exact absurd h (by simp)
      | some mcol =>
        rw [h3] at h
        simp only [Option.map_some', Option.some_inj] at h
        obtain ⟨jo, hjo, rfl⟩ := toNumericCol_some h1
        obtain ⟨ja, hja, rfl⟩ := toNumericCol_some h2
        obtain ⟨jm, hjm, rfl⟩ := getCol_some h3
        subst h
        refine ⟨jo, ja, jm, hjo, hja, hjm, _, ?_, rfl⟩
        rfl

theorem load_data_isSome_iff (c : Csv) :
    (load_data c).isSome = true ↔
      ("occurrences" ∈ c.header ∧ "total_amount" ∈ c.header ∧
        "merchant_name" ∈ c.header) := by
  constructor
  · intro h
    obtain ⟨f, hf⟩ := Option.isSome_iff_exists.mp h
    obtain ⟨jo, ja, jm, hjo, hja, hjm, -⟩ := load_data_some_parts hf
    exact ⟨(findCol_isSome _ _).mp (by simp [hjo]),
      (findCol_isSome _ _).mp (by simp [hja]),
      (findCol_isSome _ _).mp (by simp [hjm])⟩
  · rintro ⟨h1, h2, h3⟩
    obtain ⟨jo, hjo⟩ := Option.isSome_iff_exists.mp ((findCol_isSome _ _).mpr h1)
    obtain ⟨ja, hja⟩ := Option.isSome_iff_exists.mp ((findCol_isSome _ _).mpr h2)
    obtain ⟨jm, hjm⟩ := Option.isSome_iff_exists.mp ((findCol_isSome _ _).mpr h3)
    unfold load_data toNumericCol Frame.getCol
    simp only [read_csv, hjo, Option.map_some', Option.bind_eq_bind,
      Option.some_bind, hja, hjm, Option.pure_def]
    simp

theorem load_data_header {c : Csv} {f : Frame} (h : load_data c = some f) :
    f.header = if "location" ∈ c.header then c.header
      else c.header ++ ["location"] := by
  obtain ⟨jo, ja, jm, -, -, -, df2, hdf2, rfl⟩ := load_data_some_parts h
  unfold Frame.setCol
  rw [hdf2]
  by_cases hl : "location" ∈ c.header
  · obtain ⟨jl, hjl⟩ :=
      Option.isSome_iff_exists.mp ((findCol_isSome _ _).mpr hl)
    rw [hjl, if_pos hl]
  · have : findCol c.header "location" = none := by
      cases he : findCol c.header "location" with
      | none => rfl
      | some j => exact absurd ((findCol_isSome _ _).mp (by simp [he])) hl
    rw [this, if_neg hl]

/-! Helper lemmas about the filter stages. -/

theorem mem_deviceStep {f : Frame} {sel : List String} {r : List Cell}
    (h : r ∈ (deviceStep f sel).rows) : r ∈ f.rows := by
  unfold deviceStep at h
  split at h
  · exact h
  · exact (List.mem_filter.mp h).1

theorem mem_merchantStep {f : Frame} {sel : List String} {r : List Cell}
    (h : r ∈ (merchantStep f sel).rows) : r ∈ f.rows := by
  unfold merchantStep at h
  split at h
  · exact h
  · exact (List.mem_filter.mp h).1

theorem mem_rangeStep {f : Frame} {lo hi mo : Int} {r : List Cell}
    (h : r ∈ (rangeStep f lo hi mo).rows) :
    r ∈ f.rows ∧ betweenCell (f.cellAt r "total_amount") lo hi = true ∧
      geCell (f.cellAt r "occurrences") mo = true := by
  unfold rangeStep at h
  have h' := List.mem_filter.mp h
  exact ⟨h'.1, (Bool.and_eq_true _ _).mp h'.2⟩

theorem header_rangeStep (f : Frame) (lo hi mo : Int) :
    (rangeStep f lo hi mo).header = f.header := rfl

theorem header_merchantStep (f : Frame) (sel : List String) :
    (merchantStep f sel).header = f.header := by
  unfold merchantStep; split <;> rfl

theorem header_deviceStep (f : Frame) (sel : List String) :
    (deviceStep f sel).header = f.header := by
  unfold deviceStep; split <;> rfl

theorem header_filter_df (f : Frame) (c : Criteria) :
    (filter_df f c).header = f.header := by
  unfold filter_df
  rw [header_deviceStep, header_merchantStep, header_rangeStep]

theorem mem_filter_df {f : Frame} {c : Criteria} {r : List Cell}
    (h : r ∈ (filter_df f c).rows) :
    r ∈ f.rows ∧ betweenCell (f.cellAt r "total_amount") c.lo c.hi = true ∧
      geCell (f.cellAt r "occurrences") c.minOcc = true :=
  mem_rangeStep (mem_merchantStep (mem_deviceStep h))

/-! Helper lemmas for the default slider values. -/

theorem pyInt_intCast (k : Int) : pyInt ((k : Int) : Rat) = k := by
  have hden : ((k : Rat)).den = 1 := Rat.den_intCast k
  have hnum : ((k : Rat)).num = k := Rat.num_intCast k
  unfold pyInt
  split <;> simp [Rat.floor, Rat.ceil, hden, hnum]

theorem mem_colNums {f : Frame} {name : String} {r : List Cell} {q : Rat}
    (hr : r ∈ f.rows) (hc : f.cellAt r name = Cell.num q) : q ∈ f.colNums name := by
  unfold Frame.colNums Frame.colCells
  exact List.mem_filterMap.mpr
    ⟨f.cellAt r name, List.mem_map_of_mem _ hr, by rw [hc]; rfl⟩

theorem colNums_elim {f : Frame} {name : String} {q : Rat}
    (h : q ∈ f.colNums name) : ∃ r ∈ f.rows, f.cellAt r name = Cell.num q := by
  unfold Frame.colNums Frame.colCells at h
  obtain ⟨cell, hmem, hq⟩ := List.mem_filterMap.mp h
  obtain ⟨r, hr, rfl⟩ := List.mem_map.mp hmem
  cases hcell : f.cellAt r name <;> rw [hcell] at hq <;>
    simp [numOf] at hq
  exact ⟨r, hr, by rw [hcell, hq]⟩

theorem min?_le_mem {l : List Rat} {a b : Rat} (h : l.min? = some a)
    (hb : b ∈ l) : a ≤ b :=
  ((List.le_min?_iff (fun _ _ _ => le_min_iff) h).mp (le_refl a)) b hb

theorem mem_le_max? {l : List Rat} {a b : Rat} (h : l.max? = some a)
    (hb : b ∈ l) : b ≤ a :=
  ((List.max?_le_iff (fun _ _ _ => max_le_iff) h).mp (le_refl a)) b hb

/-- A numeric-column cell of a loaded dataframe: either a numeric value
with decimal denominator (as every parseNum result has) or missing. -/
def DecCell (c : Cell) : Prop :=
  (∃ q k, c = Cell.num q ∧ q.den ∣ 10 ^ k) ∨ c = Cell.na

/-- The loader's two numeric coercions applied to one row. -/
def loadRow3 (jo ja : Nat) (r1 : List Cell) : List Cell :=
  (r1.set jo (cellToNumeric (r1.getD jo Cell.na))).set ja
    (cellToNumeric ((r1.set jo (cellToNumeric (r1.getD jo Cell.na))).getD ja
      Cell.na))

/-- The shape invariant every loaded dataframe satisfies (and filtering
preserves): the four loader-touched columns exist; every row is as long as
the header; the two numeric columns hold only decimal numbers or NaN; the
location cell is the extraction of the merchant cell; every other cell is a
string. -/
def LoadedInv (g : Frame) : Prop :=
  ∃ jo ja jm jl : Nat,
    findCol g.header "occurrences" = some jo ∧
    findCol g.header "total_amount" = some ja ∧
    findCol g.header "merchant_name" = some jm ∧
    findCol g.header "location" = some jl ∧
    ∀ r ∈ g.rows,
      r.length = g.header.length ∧
      DecCell (r.getD jo Cell.na) ∧
      DecCell (r.getD ja Cell.na) ∧
      r.getD jl Cell.na = strExtractCell (r.getD jm Cell.na) ∧
      ∀ i : Nat, i < r.length → i ≠ jo → i ≠ ja → i ≠ jl →
        ∃ s, r.getD i Cell.na = Cell.str s

/-! The decimal round-trip: parseNum inverts formatRat on every rational
with a decimal denominator, which covers every numeric cell value (they all
come from parseNum). -/

theorem dvd_ten_pow_self {d k : Nat} (hd : d ≠ 0) (h : d ∣ 10 ^ k) :
    d ∣ 10 ^ d := by
  have hpk : (10 : Nat) ^ k ≠ 0 := by positivity
  have hpd : (10 : Nat) ^ d ≠ 0 := by positivity
  have h' := (Nat.factorization_le_iff_dvd hd hpk).mpr h
  refine (Nat.factorization_le_iff_dvd hd hpd).mp ?_
  rw [Nat.factorization_pow] at h' ⊢
  rw [Finsupp.le_def] at h' ⊢
  intro p
  have hp := h' p
  rw [Finsupp.smul_apply, smul_eq_mul] at hp ⊢
  by_cases h10 : Nat.factorization 10 p = 0
  · rw [h10] at hp ⊢
    simp only [Nat.mul_zero] at hp ⊢
    omega
  · have h1 : 1 ≤ Nat.factorization 10 p := Nat.one_le_iff_ne_zero.mpr h10
    have h2 : d.factorization p < d := Nat.factorization_lt p hd
    calc d.factorization p ≤ d * 1 := by omega
    _ ≤ d * Nat.factorization 10 p := Nat.mul_le_mul_left d h1

theorem mkDec_den_dvd (neg : Bool) (i f k : Nat) :
    (mkDec neg i f k).den ∣ 10 ^ k := by
  unfold mkDec
  rw [Rat.mkRat_eq_divInt]
  have h := Rat.den_dvd
    (if neg then -(i * 10 ^ k + f : Int) else (i * 10 ^ k + f : Int))
    ((10 ^ k : Nat) : Int)
  exact_mod_cast h

theorem parseParts_some {neg : Bool} {cs : List Char} {q : Rat}
    (h : parseParts neg cs = some q) : ∃ i f k, q = mkDec neg i f k := by
  unfold parseParts at h
  cases hdw : cs.dropWhile (fun c => c ≠ '.') with
  | nil =>
      rw [hdw] at h
      dsimp only at h
      split at h
      · exact ⟨_, _, _, (Option.some_inj.mp h).symm⟩
      · exact absurd h (by simp)
  | cons c frac =>
      rw [hdw] at h
      dsimp only at h
      split at h
      · exact ⟨_, _, _, (Option.some_inj.mp h).symm⟩
      · exact absurd h (by simp)

theorem parseNum_den_dvd {s : String} {q : Rat} (h : parseNum s = some q) :
    ∃ k, q.den ∣ 10 ^ k := by
  obtain ⟨i, f, k, rfl⟩ := parseParts_some h
  exact ⟨k, mkDec_den_dvd _ i f k⟩

theorem digitVal_digitChar {m : Nat} (h : m < 10) :
    digitVal (digitChar m) = m ∧ isDigitC (digitChar m) = true := by
  interval_cases m <;> exact ⟨rfl, rfl⟩

theorem foldDigits_append_singleton (a : List Char) (c : Char) :
    foldDigits (a ++ [c]) = foldDigits a * 10 + digitVal c := by
  unfold foldDigits
  rw [List.foldl_append]
  rfl

theorem digitsAux_spec : ∀ (fuel n : Nat), n < fuel →
    (∀ c ∈ digitsAux fuel n, isDigitC c = true) ∧
      digitsAux fuel n ≠ [] ∧ foldDigits (digitsAux fuel n) = n
  | 0, n, h => absurd h (by omega)
  | fuel + 1, n, h => by
      unfold digitsAux
      by_cases h10 : n < 10
      · rw [if_pos h10]
        obtain ⟨hv, hd⟩ := digitVal_digitChar h10
        refine ⟨by simpa using hd, by simp, ?_⟩
        show 0 * 10 + digitVal (digitChar n) = n
        rw [hv]
        omega
      · rw [if_neg h10]
        have hrec : n / 10 < fuel := by omega
        obtain ⟨ha, hne, hf⟩ := digitsAux_spec fuel (n / 10) hrec
        obtain ⟨hv, hd⟩ := digitVal_digitChar (m := n % 10) (by omega)
        refine ⟨?_, by simp, ?_⟩
        · intro c hc
          rcases List.mem_append.mp hc with hc | hc
          · exact ha c hc
          · rw [List.mem_singleton.mp hc]
            exact hd
        · rw [foldDigits_append_singleton, hf, hv]
          omega

theorem digitsOf_spec (n : Nat) :
    (∀ c ∈ digitsOf n, isDigitC c = true) ∧
      digitsOf n ≠ [] ∧ foldDigits (digitsOf n) = n :=
  digitsAux_spec (n + 1) n (by omega)

theorem digitsAux_length : ∀ (fuel n j : Nat), n < fuel → n < 10 ^ j →
    1 ≤ j → (digitsAux fuel n).length ≤ j
  | 0, n, j, h, _, _ => absurd h (by omega)
  | fuel + 1, n, j, h, hpow, hj => by
      unfold digitsAux
      by_cases h10 : n < 10
      · rw [if_pos h10]
        simpa using hj
      · rw [if_neg h10]
        cases j with
        | zero => omega
        | succ j0 =>
            have hj0 : 1 ≤ j0 := by
              rcases Nat.eq_zero_or_pos j0 with h0 | h0
              · subst h0; simp at hpow; omega
              · exact h0
            have hdiv : n / 10 < 10 ^ j0 := by
              rw [Nat.div_lt_iff_lt_mul (by omega)]
              calc n < 10 ^ (j0 + 1) := hpow
              _ = 10 ^ j0 * 10 := by rw [Nat.pow_succ]
            have := digitsAux_length fuel (n / 10) j0 (by omega) hdiv hj0
            simp only [List.length_append, List.length_singleton]
            omega

theorem digit_ne {c : Char} (h : isDigitC c = true) :
    c ≠ '-' ∧ c ≠ '+' ∧ c ≠ '.' := by
  refine ⟨?_, ?_, ?_⟩ <;> rintro rfl <;> exact absurd h (by decide)

theorem foldDigits_replicate_zero : ∀ m : Nat,
    List.foldl (fun a c => a * 10 + digitVal c) 0 (List.replicate m '0') = 0
  | 0 => rfl
  | m + 1 => by
      rw [List.replicate_succ]
      show List.foldl _ (0 * 10 + digitVal '0') _ = 0
      have : 0 * 10 + digitVal '0' = 0 := by decide
      rw [this]
      exact foldDigits_replicate_zero m

theorem padZeros_spec (k : Nat) (cs : List Char)
    (hall : ∀ c ∈ cs, isDigitC c = true) (hlen : cs.length ≤ k) :
    (∀ c ∈ padZeros k cs, isDigitC c = true) ∧
      (padZeros k cs).length = k ∧
      foldDigits (padZeros k cs) = foldDigits cs := by
  unfold padZeros
  refine ⟨?_, ?_, ?_⟩
  · intro c hc
    rcases List.mem_append.mp hc with hc | hc
    · rw [List.eq_of_mem_replicate hc]
      decide
    · exact hall c hc
  · rw [List.length_append, List.length_replicate]
    omega
  · unfold foldDigits
    rw [List.foldl_append, foldDigits_replicate_zero]

theorem takeWhile_all : ∀ a : List Char, (∀ c ∈ a, c ≠ '.') →
    a.takeWhile (fun c => c ≠ '.') = a ∧ a.dropWhile (fun c => c ≠ '.') = []
  | [], _ => ⟨rfl, rfl⟩
  | c :: t, h => by
      have hc : c ≠ '.' := h c (by simp)
      have ht := takeWhile_all t (fun x hx => h x (by simp [hx]))
      constructor
      · rw [List.takeWhile_cons, if_pos (by exact decide_eq_true hc), ht.1]
      · rw [List.dropWhile_cons, if_pos (by exact decide_eq_true hc), ht.2]

theorem takeWhile_split : ∀ (a : List Char) (b : List Char),
    (∀ c ∈ a, c ≠ '.') →
    (a ++ '.' :: b).takeWhile (fun c => c ≠ '.') = a ∧
      (a ++ '.' :: b).dropWhile (fun c => c ≠ '.') = '.' :: b
  | [], b, _ => by
      constructor
      · rw [List.nil_append, List.takeWhile_cons,
          if_neg (by exact of_decide_eq_false rfl)]
      · rw [List.nil_append, List.dropWhile_cons,
          if_neg (by exact of_decide_eq_false rfl)]
  | c :: t, b, h => by
      have hc : c ≠ '.' := h c (by simp)
      have ht := takeWhile_split t b (fun x hx => h x (by simp [hx]))
      constructor
      · rw [List.cons_append, List.takeWhile_cons,
          if_pos (by exact decide_eq_true hc), ht.1]
      · rw [List.cons_append, List.dropWhile_cons,
          if_pos (by exact decide_eq_true hc), ht.2]

theorem splitSign_neg (t : List Char) : splitSign ('-' :: t) = (true, t) := by
  simp [splitSign]

theorem splitSign_nosign {c : Char} (t : List Char) (h1 : c ≠ '-')
    (h2 : c ≠ '+') : splitSign (c :: t) = (false, c :: t) := by
  simp [splitSign, h1, h2]

theorem parseParts_digits (neg : Bool) (I : Nat) :
    parseParts neg (digitsOf I) = some (mkDec neg I 0 0) := by
  obtain ⟨hall, hne, hfold⟩ := digitsOf_spec I
  have hnd : ∀ c ∈ digitsOf I, c ≠ '.' := fun c hc => (digit_ne (hall c hc)).2.2
  obtain ⟨htw, hdw⟩ := takeWhile_all (digitsOf I) hnd
  unfold parseParts
  rw [hdw]
  dsimp only
  rw [htw]
  have hcond : (allDigits (digitsOf I) && !(digitsOf I).isEmpty) = true := by
    rw [Bool.and_eq_true]
    exact ⟨List.all_eq_true.mpr hall, by simp [List.isEmpty_iff, hne]⟩
  rw [if_pos hcond, hfold]

theorem parseParts_digits_frac (neg : Bool) (I F j : Nat) (hj : 1 ≤ j)
    (hF : F < 10 ^ j) :
    parseParts neg (digitsOf I ++ '.' :: padZeros j (digitsOf F))
      = some (mkDec neg I F j) := by
  obtain ⟨hallI, hneI, hfoldI⟩ := digitsOf_spec I
  obtain ⟨hallF, hneF, hfoldF⟩ := digitsOf_spec F
  have hlenF : (digitsOf F).length ≤ j := digitsAux_length (F + 1) F j (by omega) hF hj
  obtain ⟨hallP, hlenP, hfoldP⟩ := padZeros_spec j (digitsOf F) hallF hlenF
  have hnd : ∀ c ∈ digitsOf I, c ≠ '.' := fun c hc => (digit_ne (hallI c hc)).2.2
  obtain ⟨htw, hdw⟩ := takeWhile_split (digitsOf I) (padZeros j (digitsOf F)) hnd
  unfold parseParts
  rw [hdw]
  dsimp only
  rw [htw]
  have hcond : (allDigits (digitsOf I) && allDigits (padZeros j (digitsOf F)) &&
      !((digitsOf I).isEmpty && (padZeros j (digitsOf F)).isEmpty)) = true := by
    rw [Bool.and_eq_true, Bool.and_eq_true]
    refine ⟨⟨List.all_eq_true.mpr hallI, List.all_eq_true.mpr hallP⟩, ?_⟩
    simp [List.isEmpty_iff, hneI]
  rw [if_pos hcond, hfoldI, hfoldP, hfoldF, hlenP]

theorem parseNum_sign_digits : ∀ a b : List Char,
    (∀ c ∈ a, isDigitC c = true) → a ≠ [] →
    parseNum (String.mk ('-' :: (a ++ b))) = parseParts true (a ++ b) ∧
      parseNum (String.mk (a ++ b)) = parseParts false (a ++ b)
  | [], _, _, hne => absurd rfl hne
  | c :: t, b, ha, _ => by
      have hc := ha c (by simp)
      have hd := digit_ne hc
      constructor
      · unfold parseNum
        rw [show (String.mk ('-' :: ((c :: t) ++ b))).data
          = '-' :: ((c :: t) ++ b) from rfl, splitSign_neg]
      · unfold parseNum
        rw [show ((c :: t) ++ b : List Char) = c :: (t ++ b) from rfl]
        rw [show (String.mk (c :: (t ++ b))).data = c :: (t ++ b) from rfl,
          splitSign_nosign _ hd.1 hd.2.1]

theorem parse_formatRat {q : Rat} {k : Nat} (hk : q.den ∣ 10 ^ k) :
    parseNum (formatRat q) = some q := by
  have hdpos : 0 < q.den := q.den_pos
  have hd0 : q.den ≠ 0 := by omega
  have hfind : ∃ j, (List.range (q.den + 1)).find?
      (fun j => 10 ^ j % q.den == 0) = some j := by
    cases hf : (List.range (q.den + 1)).find? (fun j => 10 ^ j % q.den == 0) with
    | some j => exact ⟨j, rfl⟩
    | none =>
        exfalso
        have hmem : q.den ∈ List.range (q.den + 1) := by
          rw [List.mem_range]
          omega
        have hdd : 10 ^ q.den % q.den = 0 := by
          obtain ⟨c, hc⟩ := dvd_ten_pow_self hd0 hk
          rw [hc, Nat.mul_mod_right]
        exact absurd (by simpa using hdd) (List.find?_eq_none.mp hf q.den hmem)
  obtain ⟨j, hfj⟩ := hfind
  have hjmod : 10 ^ j % q.den = 0 := by
    have := List.find?_some hfj
    simpa using this
  have hjdvd : q.den ∣ 10 ^ j := Nat.dvd_of_mod_eq_zero hjmod
  unfold formatRat
  rw [hfj]
  dsimp only
  have hNden : q.num.natAbs * (10 ^ j / q.den) * q.den
      = q.num.natAbs * 10 ^ j := by
    rw [Nat.mul_assoc, Nat.div_mul_cancel hjdvd]
  have hcast : ((q.num.natAbs * (10 ^ j / q.den) : Nat) : Int) * (q.den : Int)
      = (q.num.natAbs : Int) * (10 : Int) ^ j := by
    exact_mod_cast congrArg (fun n : Nat => (n : Int)) hNden
  have hmk : ∀ z : Int, z * (q.den : Int) = q.num * (10 : Int) ^ j →
      mkRat z (10 ^ j) = q := by
    intro z hz
    rw [Rat.mkRat_eq_divInt]
    conv_rhs => rw [← Rat.num_divInt_den q]
    rw [Rat.divInt_eq_divInt (by positivity) (by exact_mod_cast hd0)]
    push_cast
    exact hz
  have hv : ((q.num.natAbs * (10 ^ j / q.den) / 10 ^ j : Nat) : Int) *
        (10 : Int) ^ j +
        ((q.num.natAbs * (10 ^ j / q.den) % 10 ^ j : Nat) : Int)
      = ((q.num.natAbs * (10 ^ j / q.den) : Nat) : Int) := by
    have h1 : q.num.natAbs * (10 ^ j / q.den) / 10 ^ j * 10 ^ j +
        q.num.natAbs * (10 ^ j / q.den) % 10 ^ j
        = q.num.natAbs * (10 ^ j / q.den) := Nat.div_add_mod' _ _
    exact_mod_cast congrArg (fun n : Nat => (n : Int)) h1
  have hmod : q.num.natAbs * (10 ^ j / q.den) % 10 ^ j < 10 ^ j :=
    Nat.mod_lt _ (by positivity)
  obtain ⟨hallD, hneD, -⟩ :=
    digitsOf_spec (q.num.natAbs * (10 ^ j / q.den) / 10 ^ j)
  by_cases hneg : q.num < 0
  · have habs : (q.num.natAbs : Int) = -q.num := by omega
    rw [if_pos hneg, List.append_assoc, List.singleton_append,
      (parseNum_sign_digits _ _ hallD hneD).1]
    by_cases hj0 : j = 0
    · subst hj0
      rw [if_pos rfl, List.append_nil, parseParts_digits]
      congr 1
      unfold mkDec
      rw [if_pos rfl]
      have h1 : q.num.natAbs * (10 ^ 0 / q.den) / 10 ^ 0
          = q.num.natAbs * (10 ^ 0 / q.den) := by simp
      rw [h1]
      apply hmk
      calc -(((q.num.natAbs * (10 ^ 0 / q.den) : Nat) : Int) * (10 : Int) ^ 0
            + ((0 : Nat) : Int)) * (q.den : Int)
          = -(((q.num.natAbs * (10 ^ 0 / q.den) : Nat) : Int) * (q.den : Int)) := by
            push_cast
            ring
      _ = -((q.num.natAbs : Int) * (10 : Int) ^ 0) := by rw [hcast]
      _ = q.num * (10 : Int) ^ 0 := by rw [habs]; ring
    · rw [if_neg hj0, parseParts_digits_frac true _ _ j (by omega) hmod]
      congr 1
      unfold mkDec
      rw [if_pos rfl]
      apply hmk
      calc -((((q.num.natAbs * (10 ^ j / q.den)) / 10 ^ j : Nat) : Int) *
            (10 : Int) ^ j +
            (((q.num.natAbs * (10 ^ j / q.den)) % 10 ^ j : Nat) : Int))
            * (q.den : Int)
          = -(((q.num.natAbs * (10 ^ j / q.den) : Nat) : Int) * (q.den : Int)) := by
            rw [hv]
            ring
      _ = -((q.num.natAbs : Int) * (10 : Int) ^ j) := by rw [hcast]
      _ = q.num * (10 : Int) ^ j := by rw [habs]; ring
  · have habs : (q.num.natAbs : Int) = q.num :=
      Int.natAbs_of_nonneg (le_of_not_lt hneg)
    rw [if_neg hneg, List.nil_append,
      (parseNum_sign_digits _ _ hallD hneD).2]
    by_cases hj0 : j = 0
    · subst hj0
      rw [if_pos rfl, List.append_nil, parseParts_digits]
      congr 1
      unfold mkDec
      rw [if_neg (by simp)]
      have h1 : q.num.natAbs * (10 ^ 0 / q.den) / 10 ^ 0
          = q.num.natAbs * (10 ^ 0 / q.den) := by simp
      rw [h1]
      apply hmk
      calc (((q.num.natAbs * (10 ^ 0 / q.den) : Nat) : Int) * (10 : Int) ^ 0
            + ((0 : Nat) : Int)) * (q.den : Int)
          = ((q.num.natAbs * (10 ^ 0 / q.den) : Nat) : Int) * (q.den : Int) := by
            push_cast
            ring
      _ = (q.num.natAbs : Int) * (10 : Int) ^ 0 := by rw [hcast]
      _ = q.num * (10 : Int) ^ 0 := by rw [habs]
    · rw [if_neg hj0, parseParts_digits_frac false _ _ j (by omega) hmod]
      congr 1
      unfold mkDec
      rw [if_neg (by simp)]
      apply hmk
      calc ((((q.num.natAbs * (10 ^ j / q.den)) / 10 ^ j : Nat) : Int) *
            (10 : Int) ^ j +
            (((q.num.natAbs * (10 ^ j / q.den)) % 10 ^ j : Nat) : Int))
            * (q.den : Int)
          = ((q.num.natAbs * (10 ^ j / q.den) : Nat) : Int) * (q.den : Int) := by
            rw [hv]
      _ = (q.num.natAbs : Int) * (10 : Int) ^ j := by rw [hcast]
      _ = q.num * (10 : Int) ^ j := by rw [habs]

/-! Helper lemmas for top-N extraction: stability of the insertion sort
with respect to each tie class, and prefix behaviour of filter under
take. -/

theorem filter_orderedInsert {α : Type} (key : α → Rat) (c : Rat) (a : α) :
    ∀ s : List α,
      (List.orderedInsert (fun x y => key y ≤ key x) a s).filter
          (fun x => decide (key x = c))
        = if key a = c then
            a :: s.filter (fun x => decide (key x = c))
          else s.filter (fun x => decide (key x = c))
  | [] => by
      by_cases h : key a = c <;> simp [List.orderedInsert, h]
  | b :: t => by
      rw [show List.orderedInsert (fun x y => key y ≤ key x) a (b :: t)
        = if key b ≤ key a then a :: b :: t
          else b :: List.orderedInsert (fun x y => key y ≤ key x) a t from rfl]
      by_cases hab : key b ≤ key a
      · rw [if_pos hab]
        by_cases hac : key a = c <;> simp [List.filter_cons, hac]
      · rw [if_neg hab]
        rw [List.filter_cons, filter_orderedInsert key c a t]
        by_cases hac : key a = c
        · have hbc : ¬key b = c := fun e => hab (le_of_eq (e.trans hac.symm))
          simp [hac, hbc, List.filter_cons]
        · by_cases hbc : key b = c <;> simp [hac, hbc, List.filter_cons]

theorem filter_insertionSort {α : Type} (key : α → Rat) (c : Rat) :
    ∀ l : List α,
      (List.insertionSort (fun x y => key y ≤ key x) l).filter
          (fun x => decide (key x = c))
        = l.filter (fun x => decide (key x = c))
  | [] => rfl
  | a :: t => by
      rw [show List.insertionSort (fun x y => key y ≤ key x) (a :: t)
        = List.orderedInsert (fun x y => key y ≤ key x) a
            (List.insertionSort (fun x y => key y ≤ key x) t) from rfl]
      rw [filter_orderedInsert, filter_insertionSort key c t]
      by_cases hac : key a = c <;> simp [hac, List.filter_cons]

theorem filter_take {α : Type} (p : α → Bool) : ∀ (l : List α) (n : Nat),
    ∃ m, (l.take n).filter p = (l.filter p).take m
  | _, 0 => ⟨0, by simp⟩
  | [], _ => ⟨0, by simp⟩
  | a :: t, n + 1 => by
      obtain ⟨m, hm⟩ := filter_take p t n
      by_cases hpa : p a = true
      · exact ⟨m + 1, by simp [List.take_succ_cons, List.filter_cons, hpa, hm]⟩
      · exact ⟨m, by simp [List.take_succ_cons, List.filter_cons, hpa, hm]⟩

/-! Helper lemmas for the CSV round-trip. -/

theorem findCol_lt {h : List String} {n : String} {j : Nat}
    (hj : findCol h n = some j) : j < h.length :=
  (List.getElem?_eq_some.mp (findCol_getElem h n j hj)).1

theorem findCol_none_not_mem {h : List String} {n : String}
    (hn : findCol h n = none) : n ∉ h := by
  rw [← findCol_isSome h n, hn]
  simp

theorem findCol_append_left : ∀ (h t : List String) (n : String) (j : Nat),
    findCol h n = some j → findCol (h ++ t) n = some j
  | [], _, n, j, hj => by simp [findCol] at hj
  | a :: s, t, n, j, hj => by
      by_cases hc : a = n
      · rw [List.cons_append]
        simp only [findCol, if_pos hc] at hj ⊢
        exact hj
      · rw [List.cons_append]
        simp only [findCol, if_neg hc] at hj ⊢
        obtain ⟨j0, hj0, rfl⟩ := Option.map_eq_some'.mp hj
        rw [findCol_append_left s t n j0 hj0]
        rfl

theorem map_self_of {α : Type} {f : α → α} : ∀ {l : List α},
    (∀ a ∈ l, f a = a) → l.map f = l
  | [], _ => rfl
  | a :: t, h => by
      rw [List.map_cons, h a (by simp), map_self_of (fun x hx => h x (by simp [hx]))]

theorem getD_lt {α : Type} (l : List α) (d : α) (i : Nat) (hi : i < l.length) :
    l.getD i d = l[i] := by
  rw [List.getD_eq_getElem?_getD, List.getElem?_eq_getElem hi]
  rfl

theorem cellToNumeric_roundtrip {c : Cell} (h : DecCell c) :
    cellToNumeric (Cell.str (cellToString c)) = c := by
  rcases h with ⟨q, k, rfl, hk⟩ | rfl
  · unfold cellToNumeric
    show (match parseNum (formatRat q) with
      | some q => Cell.num q
      | none => Cell.na) = Cell.num q
    rw [parse_formatRat hk]
  · rfl

theorem toNumericCol_mk {h : List String} {rows : List (List Cell)}
    {n : String} {j : Nat} (hj : findCol h n = some j) :
    toNumericCol ⟨h, rows⟩ n
      = some ⟨h, rows.map (fun r => r.set j (cellToNumeric (r.getD j Cell.na)))⟩ := by
  show (findCol h n).map _ = _
  rw [hj]
  rfl

theorem getCol_mk {h : List String} {rows : List (List Cell)} {n : String}
    {j : Nat} (hj : findCol h n = some j) :
    Frame.getCol ⟨h, rows⟩ n = some (rows.map (fun r => r.getD j Cell.na)) := by
  show (findCol h n).map _ = _
  rw [hj]
  rfl

theorem setCol_mk_replace {h : List String} {rows : List (List Cell)}
    {n : String} {j : Nat} (hj : findCol h n = some j) (vals : List Cell) :
    Frame.setCol ⟨h, rows⟩ n vals
      = ⟨h, rows.zipWith (fun r v => r.set j v) vals⟩ := by
  unfold Frame.setCol
  rw [show findCol (Frame.mk h rows).header n = some j from hj]

theorem setCol_mk_append {h : List String} {rows : List (List Cell)}
    {n : String} (hj : findCol h n = none) (vals : List Cell) :
    Frame.setCol ⟨h, rows⟩ n vals
      = ⟨h ++ [n], rows.zipWith (fun r v => r ++ [v]) vals⟩ := by
  unfold Frame.setCol
  rw [show findCol (Frame.mk h rows).header n = none from hj]

theorem loadRow_roundtrip (jo ja jm jl : Nat) (r : List Cell)
    (hjo : jo < r.length) (hja : ja < r.length) (hjm : jm < r.length)
    (hjl : jl < r.length)
    (hoa : jo ≠ ja) (hol : jo ≠ jl) (hal : ja ≠ jl)
    (hmo : jm ≠ jo) (hma : jm ≠ ja) (hml : jm ≠ jl)
    (hDo : DecCell (r.getD jo Cell.na)) (hDa : DecCell (r.getD ja Cell.na))
    (hLoc : r.getD jl Cell.na = strExtractCell (r.getD jm Cell.na))
    (hStr : ∀ i : Nat, i < r.length → i ≠ jo → i ≠ ja → i ≠ jl →
      ∃ s, r.getD i Cell.na = Cell.str s) :
    (loadRow3 jo ja (r.map (fun c => Cell.str (cellToString c)))).set jl
      (strExtractCell
        ((loadRow3 jo ja (r.map (fun c => Cell.str (cellToString c)))).getD jm
          Cell.na))
      = r := by
  have hlen1 : (r.map (fun c => Cell.str (cellToString c))).length = r.length :=
    List.length_map _ _
  have hr1get : ∀ i, i < r.length →
      (r.map (fun c => Cell.str (cellToString c)))[i]?
        = some (Cell.str (cellToString (r.getD i Cell.na))) := by
    intro i hi
    rw [List.getElem?_map, List.getElem?_eq_getElem hi, getD_lt r Cell.na i hi]
    rfl
  have hL3len : (loadRow3 jo ja (r.map (fun c => Cell.str (cellToString c)))).length
      = r.length := by
    unfold loadRow3
    rw [List.length_set, List.length_set, hlen1]
  have hL3o : (loadRow3 jo ja (r.map (fun c => Cell.str (cellToString c))))[jo]?
      = some (r.getD jo Cell.na) := by
    unfold loadRow3
    rw [List.getElem?_set_ne (Ne.symm hoa), List.getElem?_set_self
      (by rw [hlen1]; exact hjo)]
    congr 1
    rw [List.getD_eq_getElem?_getD, hr1get jo hjo]
    exact cellToNumeric_roundtrip hDo
  have hL3a : (loadRow3 jo ja (r.map (fun c => Cell.str (cellToString c))))[ja]?
      = some (r.getD ja Cell.na) := by
    unfold loadRow3
    rw [List.getElem?_set_self (by rw [List.length_set, hlen1]; exact hja)]
    congr 1
    rw [List.getD_eq_getElem?_getD, List.getElem?_set_ne hoa,
      hr1get ja hja]
    exact cellToNumeric_roundtrip hDa
  have hL3other : ∀ i : Nat, i ≠ jo → i ≠ ja →
      (loadRow3 jo ja (r.map (fun c => Cell.str (cellToString c))))[i]?
        = (r.map (fun c => Cell.str (cellToString c)))[i]? := by
    intro i h1 h2
    unfold loadRow3
    rw [List.getElem?_set_ne (Ne.symm h2), List.getElem?_set_ne (Ne.symm h1)]
  obtain ⟨sm, hsm⟩ := hStr jm hjm hmo hma hml
  have hL3m : (loadRow3 jo ja (r.map (fun c => Cell.str (cellToString c)))).getD jm
      Cell.na = Cell.str sm := by
    rw [List.getD_eq_getElem?_getD, hL3other jm hmo hma, hr1get jm hjm, hsm]
    rfl
  have hval : strExtractCell
      ((loadRow3 jo ja (r.map (fun c => Cell.str (cellToString c)))).getD jm
        Cell.na) = r.getD jl Cell.na := by
    rw [hL3m, hLoc, hsm]
  apply List.ext_getElem?
  intro i
  by_cases hi : i < r.length
  · by_cases hijl : i = jl
    · subst hijl
      rw [List.getElem?_set_self (by rw [hL3len]; exact hjl), hval,
        getD_lt r Cell.na i hi, List.getElem?_eq_getElem hi]
    · rw [List.getElem?_set_ne (Ne.symm hijl)]
      by_cases hija : i = ja
      · subst hija
        rw [hL3a, getD_lt r Cell.na i hi, List.getElem?_eq_getElem hi]
      · by_cases hijo : i = jo
        · subst hijo
          rw [hL3o, getD_lt r Cell.na i hi, List.getElem?_eq_getElem hi]
        · obtain ⟨s, hs⟩ := hStr i hi hijo hija hijl
          rw [hL3other i hijo hija, hr1get i hi, hs, List.getElem?_eq_getElem hi,
            ← getD_lt r Cell.na i hi, hs]
          rfl
  · have h1 : r.length ≤ i := by omega
    rw [List.getElem?_eq_none (by rw [List.length_set, hL3len]; exact h1),
      List.getElem?_eq_none h1]

theorem load_data_to_csv : ∀ g : Frame, LoadedInv g →
    load_data (to_csv g) = some g
  | ⟨hd, rows⟩, hInv => by
      obtain ⟨jo, ja, jm, jl, ho, ha, hm, hl, hrow⟩ := hInv
      have hoa : jo ≠ ja := fun e => absurd (findCol_inj (e ▸ ho) ha) (by decide)
      have hol : jo ≠ jl := fun e => absurd (findCol_inj (e ▸ ho) hl) (by decide)
      have hal : ja ≠ jl := fun e => absurd (findCol_inj (e ▸ ha) hl) (by decide)
      have hmo : jm ≠ jo := fun e => absurd (findCol_inj (e ▸ hm) ho) (by decide)
      have hma : jm ≠ ja := fun e => absurd (findCol_inj (e ▸ hm) ha) (by decide)
      have hml : jm ≠ jl := fun e => absurd (findCol_inj (e ▸ hm) hl) (by decide)
      unfold load_data
      rw [show read_csv (to_csv ⟨hd, rows⟩)
          = ⟨hd, rows.map (fun r => r.map (fun c => Cell.str (cellToString c)))⟩
        from ?hread]
      case hread =>
        show (⟨hd, (rows.map (fun r => r.map cellToString)).map
          (fun r => r.map Cell.str)⟩ : Frame) = _
        rw [List.map_map]
        have hfun : ((fun r : List String => List.map Cell.str r) ∘
              fun r : List Cell => List.map cellToString r)
            = fun r : List Cell => List.map (fun c => Cell.str (cellToString c)) r := by
          funext r
          show (r.map cellToString).map Cell.str = _
          rw [List.map_map]
          rfl
        rw [hfun]
      rw [toNumericCol_mk ho, Option.some_bind, toNumericCol_mk ha,
        Option.some_bind, getCol_mk hm, Option.map_some', setCol_mk_replace hl]
      refine congrArg some ?_
      rw [Frame.mk.injEq]
      refine ⟨rfl, ?_⟩
      simp only [List.map_map, List.zipWith_map_right, List.zipWith_map_left,
        List.zipWith_same]
      apply map_self_of
      intro r hr
      obtain ⟨hlen, hDo, hDa, hLoc, hStr⟩ := hrow r hr
      exact loadRow_roundtrip jo ja jm jl r
        (by rw [hlen]; exact findCol_lt ho)
        (by rw [hlen]; exact findCol_lt ha)
        (by rw [hlen]; exact findCol_lt hm)
        (by rw [hlen]; exact findCol_lt hl)
        hoa hol hal hmo hma hml hDo hDa hLoc hStr

theorem decCell_toNumeric (s : String) : DecCell (cellToNumeric (Cell.str s)) := by
  show DecCell (match parseNum s with
    | some q => Cell.num q
    | none => Cell.na)
  cases hp : parseNum s with
  | some q =>
      obtain ⟨k, hk⟩ := parseNum_den_dvd hp
      exact Or.inl ⟨q, k, rfl, hk⟩
  | none => exact Or.inr rfl

theorem loadRow3_cells (jo ja : Nat) (r0 : List String)
    (hjo : jo < r0.length) (hja : ja < r0.length) (hoa : jo ≠ ja) :
    (loadRow3 jo ja (r0.map Cell.str)).length = r0.length ∧
      DecCell ((loadRow3 jo ja (r0.map Cell.str)).getD jo Cell.na) ∧
      DecCell ((loadRow3 jo ja (r0.map Cell.str)).getD ja Cell.na) ∧
      ∀ i : Nat, i < r0.length → i ≠ jo → i ≠ ja →
        ∃ s, (loadRow3 jo ja (r0.map Cell.str)).getD i Cell.na = Cell.str s := by
  have hlen1 : (r0.map Cell.str).length = r0.length := List.length_map _ _
  have hr1get : ∀ i, i < r0.length →
      (r0.map Cell.str)[i]? = some (Cell.str (r0.getD i "")) := by
    intro i hi
    rw [List.getElem?_map, List.getElem?_eq_getElem hi, getD_lt r0 "" i hi]
    rfl
  refine ⟨?_, ?_, ?_, ?_⟩
  · unfold loadRow3
    rw [List.length_set, List.length_set, hlen1]
  · unfold loadRow3
    rw [List.getD_eq_getElem?_getD, List.getElem?_set_ne (Ne.symm hoa),
      List.getElem?_set_self (by rw [hlen1]; exact hjo)]
    have : (r0.map Cell.str).getD jo Cell.na = Cell.str (r0.getD jo "") := by
      rw [List.getD_eq_getElem?_getD, hr1get jo hjo]
      rfl
    rw [this]
    exact decCell_toNumeric _
  · unfold loadRow3
    rw [List.getD_eq_getElem?_getD,
      List.getElem?_set_self (by rw [List.length_set, hlen1]; exact hja)]
    have : ((r0.map Cell.str).set jo
        (cellToNumeric ((r0.map Cell.str).getD jo Cell.na))).getD ja Cell.na
        = Cell.str (r0.getD ja "") := by
      rw [List.getD_eq_getElem?_getD, List.getElem?_set_ne hoa, hr1get ja hja]
      rfl
    rw [this]
    exact decCell_toNumeric _
  · intro i hi h1 h2
    unfold loadRow3
    rw [List.getD_eq_getElem?_getD, List.getElem?_set_ne (Ne.symm h2),
      List.getElem?_set_ne (Ne.symm h1), hr1get i hi]
    exact ⟨r0.getD i "", rfl⟩

theorem load_data_explicit (c : Csv) (jo ja jm : Nat)
    (ho : findCol c.header "occurrences" = some jo)
    (ha : findCol c.header "total_amount" = some ja)
    (hm : findCol c.header "merchant_name" = some jm) :
    load_data c = some (Frame.setCol
      ⟨c.header,
        ((c.records.map (fun r0 => r0.map Cell.str)).map
            (fun r => r.set jo (cellToNumeric (r.getD jo Cell.na)))).map
          (fun r => r.set ja (cellToNumeric (r.getD ja Cell.na)))⟩
      "location"
      ((((c.records.map (fun r0 => r0.map Cell.str)).map
            (fun r => r.set jo (cellToNumeric (r.getD jo Cell.na)))).map
          (fun r => r.set ja (cellToNumeric (r.getD ja Cell.na)))).map
        (fun r => strExtractCell (r.getD jm Cell.na)))) := by
  unfold load_data
  rw [show read_csv c = ⟨c.header, c.records.map (fun r0 => r0.map Cell.str)⟩
    from rfl]
  rw [toNumericCol_mk ho, Option.some_bind, toNumericCol_mk ha,
    Option.some_bind, getCol_mk hm, Option.map_some']
  simp only [List.map_map]
  rfl

theorem load_data_inv {c : Csv} {f : Frame}
    (hrect : ∀ r ∈ c.records, r.length = c.header.length)
    (h : load_data c = some f) : LoadedInv f := by
  obtain ⟨jo, ja, jm, hjo, hja, hjm, -⟩ := load_data_some_parts h
  have hexp := load_data_explicit c jo ja jm hjo hja hjm
  rw [h] at hexp
  have hf := Option.some_inj.mp hexp
  have hoa : jo ≠ ja := fun e => absurd (findCol_inj (e ▸ hjo) hja) (by decide)
  have hmo : jm ≠ jo := fun e => absurd (findCol_inj (e ▸ hjm) hjo) (by decide)
  have hma : jm ≠ ja := fun e => absurd (findCol_inj (e ▸ hjm) hja) (by decide)
  have hjoL := findCol_lt hjo
  have hjaL := findCol_lt hja
  have hjmL := findCol_lt hjm
  have hrows3 : ∀ r ∈ ((c.records.map (fun r0 => r0.map Cell.str)).map
        (fun r => r.set jo (cellToNumeric (r.getD jo Cell.na)))).map
        (fun r => r.set ja (cellToNumeric (r.getD ja Cell.na))),
      ∃ r0 ∈ c.records, r = loadRow3 jo ja (r0.map Cell.str) := by
    intro r hr
    obtain ⟨r2, hr2, rfl⟩ := List.mem_map.mp hr
    obtain ⟨r1, hr1, rfl⟩ := List.mem_map.mp hr2
    obtain ⟨r0, hr0, rfl⟩ := List.mem_map.mp hr1
    exact ⟨r0, hr0, rfl⟩
  cases hloc : findCol c.header "location" with
  | some jl =>
      rw [setCol_mk_replace hloc] at hf
      have hol : jo ≠ jl := fun e => absurd (findCol_inj (e ▸ hjo) hloc) (by decide)
      have hal : ja ≠ jl := fun e => absurd (findCol_inj (e ▸ hja) hloc) (by decide)
      have hml : jm ≠ jl := fun e => absurd (findCol_inj (e ▸ hjm) hloc) (by decide)
      have hjlL := findCol_lt hloc
      have hhead : f.header = c.header := by rw [hf]
      refine ⟨jo, ja, jm, jl, by rw [hhead]; exact hjo, by rw [hhead]; exact hja,
        by rw [hhead]; exact hjm, by rw [hhead]; exact hloc, ?_⟩
      intro r hr
      rw [hf] at hr
      simp only [List.zipWith_map_right, List.zipWith_same] at hr
      obtain ⟨r3, hr3, rfl⟩ := List.mem_map.mp hr
      obtain ⟨r0, hr0, rfl⟩ := hrows3 r3 hr3
      have hlen0 : r0.length = c.header.length := hrect r0 hr0
      obtain ⟨hL, hDo, hDa, hOther⟩ := loadRow3_cells jo ja r0
        (by omega) (by omega) hoa
      have hLlen : (loadRow3 jo ja (r0.map Cell.str)).length = c.header.length := by
        rw [hL, hlen0]
      refine ⟨?_, ?_, ?_, ?_, ?_⟩
      · rw [List.length_set, hhead, hLlen]
      · rw [List.getD_eq_getElem?_getD, List.getElem?_set_ne (Ne.symm hol),
          ← List.getD_eq_getElem?_getD]
        exact hDo
      · rw [List.getD_eq_getElem?_getD, List.getElem?_set_ne (Ne.symm hal),
          ← List.getD_eq_getElem?_getD]
        exact hDa
      · rw [List.getD_eq_getElem?_getD, List.getElem?_set_self
          (by rw [hLlen]; exact hjlL), Option.getD_some]
        conv_rhs => rw [List.getD_eq_getElem?_getD,
          List.getElem?_set_ne (Ne.symm hml), ← List.getD_eq_getElem?_getD]
      · intro i hi h1 h2 h3
        rw [List.length_set, hLlen] at hi
        rw [List.getD_eq_getElem?_getD, List.getElem?_set_ne (Ne.symm h3),
          ← List.getD_eq_getElem?_getD]
        exact hOther i (by omega) h1 h2
  | none =>
      rw [setCol_mk_append hloc] at hf
      have hlocmem := findCol_none_not_mem hloc
      have hhead : f.header = c.header ++ ["location"] := by rw [hf]
      refine ⟨jo, ja, jm, c.header.length,
        by rw [hhead]; exact findCol_append_left _ _ _ _ hjo,
        by rw [hhead]; exact findCol_append_left _ _ _ _ hja,
        by rw [hhead]; exact findCol_append_left _ _ _ _ hjm,
        by rw [hhead]; exact findCol_append_not_mem _ _ hlocmem, ?_⟩
      intro r hr
      rw [hf] at hr
      simp only [List.zipWith_map_right, List.zipWith_same] at hr
      obtain ⟨r3, hr3, rfl⟩ := List.mem_map.mp hr
      obtain ⟨r0, hr0, rfl⟩ := hrows3 r3 hr3
      have hlen0 : r0.length = c.header.length := hrect r0 hr0
      obtain ⟨hL, hDo, hDa, hOther⟩ := loadRow3_cells jo ja r0
        (by omega) (by omega) hoa
      have hLlen : (loadRow3 jo ja (r0.map Cell.str)).length = c.header.length := by
        rw [hL, hlen0]
      refine ⟨?_, ?_, ?_, ?_, ?_⟩
      · rw [List.length_append, hhead, List.length_append, hLlen]
        rfl
      · rw [List.getD_eq_getElem?_getD, List.getElem?_append,
          if_pos (by rw [hLlen]; omega), ← List.getD_eq_getElem?_getD]
        exact hDo
      · rw [List.getD_eq_getElem?_getD, List.getElem?_append,
          if_pos (by rw [hLlen]; omega), ← List.getD_eq_getElem?_getD]
        exact hDa
      · rw [List.getD_eq_getElem?_getD,
          show c.header.length = (loadRow3 jo ja (r0.map Cell.str)).length
            from hLlen.symm,
          List.getElem?_concat_length, Option.getD_some]
        conv_rhs => rw [List.getD_eq_getElem?_getD, List.getElem?_append,
          if_pos (by rw [hLlen]; omega), ← List.getD_eq_getElem?_getD]
      · intro i hi h1 h2 h3
        rw [List.length_append] at hi
        have hiL : i < (loadRow3 jo ja (r0.map Cell.str)).length := by
          rw [hLlen]
          simp only [List.length_singleton] at hi
          omega
        rw [List.getD_eq_getElem?_getD, List.getElem?_append, if_pos hiL,
          ← List.getD_eq_getElem?_getD]
        exact hOther i (by rw [hLlen] at hiL; omega) h1 h2

theorem filter_df_inv {f : Frame} (crit : Criteria) (h : LoadedInv f) :
    LoadedInv (filter_df f crit) := by
  obtain ⟨jo, ja, jm, jl, ho, ha, hm, hl, hrow⟩ := h
  refine ⟨jo, ja, jm, jl, ?_, ?_, ?_, ?_, ?_⟩
  · rw [header_filter_df]
    exact ho
  · rw [header_filter_df]
    exact ha
  · rw [header_filter_df]
    exact hm
  · rw [header_filter_df]
    exact hl
  · intro r hr
    rw [header_filter_df]
    exact hrow r (mem_filter_df hr).1

/-! Claims. -/

/-- C2, counterexample: with no merchants and no devices selected and both
sliders at their default values (amount range (int(min), int(max)) = (5, 5),
minimum occurrences 1), a dataset whose single row has occurrences 0 is not
returned unchanged: the default minimum-occurrences threshold is 1, so the
row is dropped and the filtered total-amount sum is 0 instead of 5.  This
refutes the claim that the all-unset criteria are the true predicate. -/
theorem claim_C2_counterexample :
    defaultAmountRange ⟨["merchant_name", "device_name", "masked_card_no",
        "occurrences", "total_amount"],
        [[Cell.str "A", Cell.str "d", Cell.str "c", Cell.num 0, Cell.num 5]]⟩
      = some (5, 5) ∧
      filter_df ⟨["merchant_name", "device_name", "masked_card_no",
          "occurrences", "total_amount"],
          [[Cell.str "A", Cell.str "d", Cell.str "c", Cell.num 0, Cell.num 5]]⟩
          ⟨[], [], 5, 5, 1⟩
        ≠ ⟨["merchant_name", "device_name", "masked_card_no",
          "occurrences", "total_amount"],
          [[Cell.str "A", Cell.str "d", Cell.str "c", Cell.num 0, Cell.num 5]]⟩ ∧
      total_amount (filter_df ⟨["merchant_name", "device_name",
          "masked_card_no", "occurrences", "total_amount"],
          [[Cell.str "A", Cell.str "d", Cell.str "c", Cell.num 0, Cell.num 5]]⟩
          ⟨[], [], 5, 5, 1⟩) = 0 ∧
      total_amount ⟨["merchant_name", "device_name", "masked_card_no",
          "occurrences", "total_amount"],
          [[Cell.str "A", Cell.str "d", Cell.str "c", Cell.num 0, Cell.num 5]]⟩
        = 5 := by
  have hsum : ∀ l : List Rat, l = [5] → l.sum = 5 := by
    rintro _ rfl
    norm_num [List.sum_cons, List.sum_nil]
  exact ⟨by decide, by decide, by decide, hsum _ (by decide)⟩

/-- C2, amended: filtering with no merchant and no device selection and the
sliders at their defaults returns the dataset unchanged (and hence preserves
the total-amount sum) provided every row has an integer-valued non-missing
total_amount and a non-missing occurrences value of at least 1 (the default
slider floor).  Rows with occurrences below 1, or with fractional or missing
numeric values, can be dropped by the default criteria.  The merchant-set
step with an empty selection is unconditionally the identity. -/
theorem claim_C2 (f : Frame) (lo hi : Int)
    (hdr : defaultAmountRange f = some (lo, hi))
    (hamt : ∀ r ∈ f.rows, ∃ n : Int, f.cellAt r "total_amount" = Cell.num (n : Rat))
    (hocc : ∀ r ∈ f.rows, ∃ q : Rat, f.cellAt r "occurrences" = Cell.num q ∧ 1 ≤ q) :
    filter_df f ⟨[], [], lo, hi, 1⟩ = f ∧
      total_amount (filter_df f ⟨[], [], lo, hi, 1⟩) = total_amount f ∧
      ∀ g : Frame, merchantStep g [] = g := by
  have hrange : ∃ mn mx : Rat, f.colMin "total_amount" = some mn ∧
      f.colMax "total_amount" = some mx ∧ lo = pyInt mn ∧ hi = pyInt mx := by
    unfold defaultAmountRange at hdr
    cases h1 : f.colMin "total_amount" with
    | none => rw [h1] at hdr; exact absurd hdr (by simp)
    | some mn =>
      cases h2 : f.colMax "total_amount" with
      | none => rw [h1, h2] at hdr; exact absurd hdr (by simp)
      | some mx =>
        rw [h1, h2] at hdr
        simp only [Option.some_inj, Prod.mk.injEq] at hdr
        exact ⟨mn, mx, rfl, rfl, hdr.1.symm, hdr.2.symm⟩
  obtain ⟨mn, mx, hmn, hmx, rfl, rfl⟩ := hrange
  have hmnInt : ∃ k : Int, mn = (k : Rat) := by
    obtain ⟨r, hr, hc⟩ := colNums_elim (List.min?_mem (fun a b => min_choice a b) hmn)
    obtain ⟨k, hk⟩ := hamt r hr
    rw [hc] at hk
    exact ⟨k, by injection hk⟩
  have hmxInt : ∃ k : Int, mx = (k : Rat) := by
    obtain ⟨r, hr, hc⟩ := colNums_elim (List.max?_mem (fun a b => max_choice a b) hmx)
    obtain ⟨k, hk⟩ := hamt r hr
    rw [hc] at hk
    exact ⟨k, by injection hk⟩
  have hlo : ((pyInt mn : Int) : Rat) = mn := by
    obtain ⟨k, rfl⟩ := hmnInt
    rw [pyInt_intCast]
  have hhi : ((pyInt mx : Int) : Rat) = mx := by
    obtain ⟨k, rfl⟩ := hmxInt
    rw [pyInt_intCast]
  have hfil : rangeStep f (pyInt mn) (pyInt mx) 1 = f := by
    have hrows : f.rows.filter (fun r =>
        betweenCell (f.cellAt r "total_amount") (pyInt mn) (pyInt mx) &&
          geCell (f.cellAt r "occurrences") 1) = f.rows := by
      apply List.filter_eq_self.mpr
      intro r hr
      obtain ⟨n, hn⟩ := hamt r hr
      obtain ⟨qo, hq, h1q⟩ := hocc r hr
      have hmem : ((n : Int) : Rat) ∈ f.colNums "total_amount" := mem_colNums hr hn
      have hge : (pyInt mn : Rat) ≤ (n : Rat) := by
        rw [hlo]; exact min?_le_mem hmn hmem
      have hle : ((n : Int) : Rat) ≤ (pyInt mx : Rat) := by
        rw [hhi]; exact mem_le_max? hmx hmem
      rw [hn, hq]
      unfold betweenCell geCell
      simp only [Bool.and_eq_true, decide_eq_true_eq]
      refine ⟨⟨hge, hle⟩, ?_⟩
      rw [Int.cast_one]
      exact h1q
    unfold rangeStep
    rcases f with ⟨hd, rows⟩
    simp only [Frame.mk.injEq, true_and]
    exact hrows
  have hmst : ∀ g : Frame, merchantStep g [] = g := by
    intro g
    unfold merchantStep
    simp
  have hdst : ∀ g : Frame, deviceStep g [] = g := by
    intro g
    unfold deviceStep
    simp
  have hmain : filter_df f ⟨[], [], pyInt mn, pyInt mx, 1⟩ = f := by
    unfold filter_df
    simp only
    rw [hmst, hdst, hfil]
  exact ⟨hmain, by rw [hmain], hmst⟩

/-- Witness for C2 at a dataset with integer amounts and occurrences at
least 1: the default criteria keep it unchanged. -/
theorem claim_C2_witness :
    defaultAmountRange ⟨["merchant_name", "device_name", "masked_card_no",
        "occurrences", "total_amount"],
        [[Cell.str "A", Cell.str "d", Cell.str "c", Cell.num 2, Cell.num 7]]⟩
      = some (7, 7) ∧
      (filter_df ⟨["merchant_name", "device_name", "masked_card_no",
          "occurrences", "total_amount"],
          [[Cell.str "A", Cell.str "d", Cell.str "c", Cell.num 2, Cell.num 7]]⟩
          ⟨[], [], 7, 7, 1⟩
        = ⟨["merchant_name", "device_name", "masked_card_no",
          "occurrences", "total_amount"],
          [[Cell.str "A", Cell.str "d", Cell.str "c", Cell.num 2, Cell.num 7]]⟩ ∧
      total_amount (filter_df ⟨["merchant_name", "device_name",
          "masked_card_no", "occurrences", "total_amount"],
          [[Cell.str "A", Cell.str "d", Cell.str "c", Cell.num 2, Cell.num 7]]⟩
          ⟨[], [], 7, 7, 1⟩)
        = total_amount ⟨["merchant_name", "device_name", "masked_card_no",
          "occurrences", "total_amount"],
          [[Cell.str "A", Cell.str "d", Cell.str "c", Cell.num 2, Cell.num 7]]⟩ ∧
      ∀ g : Frame, merchantStep g [] = g) :=
  ⟨by decide,
    claim_C2 ⟨["merchant_name", "device_name", "masked_card_no",
        "occurrences", "total_amount"],
        [[Cell.str "A", Cell.str "d", Cell.str "c", Cell.num 2, Cell.num 7]]⟩
      7 7 (by decide)
      (by
        rintro r hr
        rw [List.mem_singleton] at hr
        subst hr
        exact ⟨7, by decide⟩)
      (by
        rintro r hr
        rw [List.mem_singleton] at hr
        subst hr
        exact ⟨2, by decide, by norm_num⟩)⟩

/-- C3, counterexample: a CSV that lacks both device_name and
masked_card_no still loads successfully, refuting the claim that ingestion
fails whenever any one of the five mandatory columns is absent.
The loader (lines 12 to 24) only touches occurrences, total_amount and
merchant_name; the other two columns are first read much later, outside
ingestion. -/
theorem claim_C3_counterexample :
    "device_name" ∉
        (⟨["merchant_name", "occurrences", "total_amount"],
          [["A", "1", "100"]]⟩ : Csv).header ∧
      "masked_card_no" ∉
        (⟨["merchant_name", "occurrences", "total_amount"],
          [["A", "1", "100"]]⟩ : Csv).header ∧
      (load_data ⟨["merchant_name", "occurrences", "total_amount"],
        [["A", "1", "100"]]⟩).isSome = true := by
  refine ⟨?_, ?_, by decide⟩ <;> decide

/-- C3, amended: ingestion returns a dataset when the five mandatory
columns are present, but it fails (pandas KeyError, the load-time error the
spec calls MalformedInputError) exactly when one of merchant_name,
occurrences or total_amount is absent; a missing device_name or
masked_card_no does not make ingestion itself fail. -/
theorem claim_C3 (c : Csv) :
    (load_data c).isSome = true ↔
      ("occurrences" ∈ c.header ∧ "total_amount" ∈ c.header ∧
        "merchant_name" ∈ c.header) :=
  load_data_isSome_iff c

/-- C4, counterexample: the downloaded CSV does not have a schema identical
to the uploaded input: the loader appends the derived location column, and
filtered_df.to_csv exports it, so the export has one extra column. -/
theorem claim_C4_counterexample :
    load_data ⟨["merchant_name", "device_name", "masked_card_no",
        "occurrences", "total_amount"], [["A", "d", "c", "1", "100"]]⟩
      = some ⟨["merchant_name", "device_name", "masked_card_no",
        "occurrences", "total_amount", "location"],
        [[Cell.str "A", Cell.str "d", Cell.str "c", Cell.num 1, Cell.num 100,
          Cell.str "A"]]⟩ ∧
      (to_csv (filter_df ⟨["merchant_name", "device_name", "masked_card_no",
          "occurrences", "total_amount", "location"],
          [[Cell.str "A", Cell.str "d", Cell.str "c", Cell.num 1, Cell.num 100,
            Cell.str "A"]]⟩ ⟨[], [], 0, 200, 1⟩)).header
        ≠ (⟨["merchant_name", "device_name", "masked_card_no",
          "occurrences", "total_amount"], [["A", "d", "c", "1", "100"]]⟩ :
            Csv).header := by
  exact ⟨by decide, by decide⟩

/-- C4, amended: for an input CSV without a location column, the CSV
produced by the download action has the input schema with the derived
location column appended at the end, and its records are exactly the rows
remaining after the filter criteria, stringified cell by cell. -/
theorem claim_C4 (c : Csv) (crit : Criteria) (f : Frame)
    (h : load_data c = some f) (hl : "location" ∉ c.header) :
    (to_csv (filter_df f crit)).header = c.header ++ ["location"] ∧
      (to_csv (filter_df f crit)).records
        = (filter_df f crit).rows.map (List.map cellToString) := by
  constructor
  · show (filter_df f crit).header = _
    rw [header_filter_df, load_data_header h, if_neg hl]
  · rfl

/-- Witness for C4 at a concrete upload and filter. -/
theorem claim_C4_witness :
    (to_csv (filter_df ⟨["merchant_name", "device_name", "masked_card_no",
        "occurrences", "total_amount", "location"],
        [[Cell.str "A", Cell.str "d", Cell.str "c", Cell.num 1, Cell.num 100,
          Cell.str "A"]]⟩ ⟨[], [], 0, 150, 1⟩)).header
      = ["merchant_name", "device_name", "masked_card_no",
        "occurrences", "total_amount"] ++ ["location"] ∧
      (to_csv (filter_df ⟨["merchant_name", "device_name", "masked_card_no",
          "occurrences", "total_amount", "location"],
          [[Cell.str "A", Cell.str "d", Cell.str "c", Cell.num 1, Cell.num 100,
            Cell.str "A"]]⟩ ⟨[], [], 0, 150, 1⟩)).records
        = (filter_df ⟨["merchant_name", "device_name", "masked_card_no",
            "occurrences", "total_amount", "location"],
            [[Cell.str "A", Cell.str "d", Cell.str "c", Cell.num 1, Cell.num 100,
              Cell.str "A"]]⟩ ⟨[], [], 0, 150, 1⟩).rows.map
            (List.map cellToString) :=
  claim_C4 ⟨["merchant_name", "device_name", "masked_card_no",
      "occurrences", "total_amount"], [["A", "d", "c", "1", "100"]]⟩
    ⟨[], [], 0, 150, 1⟩ _ (by decide) (by decide)

/-- C8: ingestion coerces unparseable total_amount or occurrences values to
missing rather than failing the load (the loader succeeds whenever its
three required columns are present, whatever the cell contents), and on the
spec's three-row scenario with amounts 100, bad, 50 the total amount is
150, the row count is 3, and merchant A's group total is 150. -/
theorem claim_C8 :
    (∀ c : Csv, "occurrences" ∈ c.header → "total_amount" ∈ c.header →
      "merchant_name" ∈ c.header → (load_data c).isSome = true) ∧
      load_data ⟨["merchant_name", "device_name", "masked_card_no",
          "occurrences", "total_amount"],
        [["A", "d1", "c1", "1", "100"],
         ["B", "d1", "c2", "1", "bad"],
         ["A", "d2", "c3", "1", "50"]]⟩
      = some ⟨["merchant_name", "device_name", "masked_card_no",
          "occurrences", "total_amount", "location"],
        [[Cell.str "A", Cell.str "d1", Cell.str "c1", Cell.num 1,
            Cell.num 100, Cell.str "A"],
         [Cell.str "B", Cell.str "d1", Cell.str "c2", Cell.num 1,
            Cell.na, Cell.str "B"],
         [Cell.str "A", Cell.str "d2", Cell.str "c3", Cell.num 1,
            Cell.num 50, Cell.str "A"]]⟩ ∧
      (⟨["merchant_name", "device_name", "masked_card_no",
          "occurrences", "total_amount", "location"],
        [[Cell.str "A", Cell.str "d1", Cell.str "c1", Cell.num 1,
            Cell.num 100, Cell.str "A"],
         [Cell.str "B", Cell.str "d1", Cell.str "c2", Cell.num 1,
            Cell.na, Cell.str "B"],
         [Cell.str "A", Cell.str "d2", Cell.str "c3", Cell.num 1,
            Cell.num 50, Cell.str "A"]]⟩ : Frame).rows.length = 3 ∧
      total_amount ⟨["merchant_name", "device_name", "masked_card_no",
          "occurrences", "total_amount", "location"],
        [[Cell.str "A", Cell.str "d1", Cell.str "c1", Cell.num 1,
            Cell.num 100, Cell.str "A"],
         [Cell.str "B", Cell.str "d1", Cell.str "c2", Cell.num 1,
            Cell.na, Cell.str "B"],
         [Cell.str "A", Cell.str "d2", Cell.str "c3", Cell.num 1,
            Cell.num 50, Cell.str "A"]]⟩ = 150 ∧
      groupSumAmount ⟨["merchant_name", "device_name", "masked_card_no",
          "occurrences", "total_amount", "location"],
        [[Cell.str "A", Cell.str "d1", Cell.str "c1", Cell.num 1,
            Cell.num 100, Cell.str "A"],
         [Cell.str "B", Cell.str "d1", Cell.str "c2", Cell.num 1,
            Cell.na, Cell.str "B"],
         [Cell.str "A", Cell.str "d2", Cell.str "c3", Cell.num 1,
            Cell.num 50, Cell.str "A"]]⟩ "A" = 150 := by
  have hsum : ∀ l : List Rat, l = [100, 50] → l.sum = 150 := by
    rintro _ rfl
    norm_num [List.sum_cons, List.sum_nil]
  exact ⟨fun c h1 h2 h3 => (load_data_isSome_iff c).mpr ⟨h1, h2, h3⟩,
    by decide, by decide, hsum _ (by decide), hsum _ (by decide)⟩

/-- Witness for the universally quantified part of C8: a concrete CSV with
the three loader-required columns and an unparseable amount still loads. -/
theorem claim_C8_witness :
    (load_data ⟨["merchant_name", "occurrences", "total_amount"],
      [["A", "1", "oops"]]⟩).isSome = true :=
  claim_C8.1 ⟨["merchant_name", "occurrences", "total_amount"],
    [["A", "1", "oops"]]⟩ (by decide) (by decide) (by decide)

/-- C9: the five headline metric cards are computed from the full
unfiltered dataframe, so two dashboard runs on the same dataframe that
differ only in the filter criteria produce identical headline metric
values. -/
theorem claim_C9 : ∀ (f : Frame) (c1 c2 : Criteria),
    (runDashboard f c1).1 = (runDashboard f c2).1 :=
  fun _ _ _ => rfl

/-- C1, counterexample: on the empty dataset (here: loaded from a CSV with
the five mandatory columns and zero data rows) the top-merchant aggregate
does not return an empty result but fails: idxmax of the empty grouped
series raises a ValueError, modelled by the error value of top_merchant.
This refutes the claim that every aggregate metric returns a zero/empty
result rather than failing on the empty dataset. -/
theorem claim_C1_counterexample :
    load_data ⟨["merchant_name", "device_name", "masked_card_no",
        "occurrences", "total_amount"], []⟩
      = some ⟨["merchant_name", "device_name", "masked_card_no",
        "occurrences", "total_amount", "location"], []⟩
    ∧ top_merchant ⟨["merchant_name", "device_name", "masked_card_no",
        "occurrences", "total_amount", "location"], []⟩
      = Except.error "ValueError: attempt to get argmax of an empty sequence" :=
  ⟨rfl, rfl⟩

/-- C1, amended: on the empty dataset the total-occurrences sum, the
total-amount sum and the unique-card count return zero, and the maximum
transaction returns a missing value, but the top-merchant aggregate fails
with a ValueError (idxmax of an empty sequence) instead of returning an
empty result. -/
theorem claim_C1 (f : Frame) (h : f.rows = []) :
    total_transactions f = 0 ∧ total_amount f = 0 ∧ unique_cards f = 0 ∧
      max_transaction f = none ∧
      top_merchant f
        = Except.error "ValueError: attempt to get argmax of an empty sequence" := by
  rcases f with ⟨hd, rows⟩
  cases h
  exact ⟨rfl, rfl, rfl, rfl, rfl⟩

/-- Witness for C1 at a concrete empty dataframe. -/
theorem claim_C1_witness :
    total_transactions ⟨["merchant_name", "device_name", "masked_card_no",
        "occurrences", "total_amount", "location"], []⟩ = 0 ∧
      total_amount ⟨["merchant_name", "device_name", "masked_card_no",
        "occurrences", "total_amount", "location"], []⟩ = 0 ∧
      unique_cards ⟨["merchant_name", "device_name", "masked_card_no",
        "occurrences", "total_amount", "location"], []⟩ = 0 ∧
      max_transaction ⟨["merchant_name", "device_name", "masked_card_no",
        "occurrences", "total_amount", "location"], []⟩ = none ∧
      top_merchant ⟨["merchant_name", "device_name", "masked_card_no",
        "occurrences", "total_amount", "location"], []⟩
        = Except.error "ValueError: attempt to get argmax of an empty sequence" :=
  claim_C1 _ rfl

/-- C5: top-N extraction (nlargest with keep='first', as on line 142)
returns at most N groups, sorted descending by the chosen measure; ties are
broken by original iteration order, stated as: for every tie class (every
value c of the measure), the extracted members of that class form a prefix
of the class in input order; and the extraction is idempotent: re-running
it with N2 at least N on its own output returns the same list. -/
theorem claim_C5 {α : Type} (key : α → Rat) (n n2 : Nat) (l : List α)
    (h : n ≤ n2) :
    (nlargestBy key n l).length ≤ n ∧
      List.Pairwise (fun a b => key b ≤ key a) (nlargestBy key n l) ∧
      (∀ c : Rat, ∃ m,
        (nlargestBy key n l).filter (fun x => decide (key x = c))
          = (l.filter (fun x => decide (key x = c))).take m) ∧
      nlargestBy key n2 (nlargestBy key n l) = nlargestBy key n l := by
  have htot : IsTotal α (fun x y => key y ≤ key x) :=
    ⟨fun a b => le_total (key b) (key a)⟩
  have htr : IsTrans α (fun x y => key y ≤ key x) :=
    ⟨fun _ _ _ h1 h2 => le_trans h2 h1⟩
  have hsorted : List.Sorted (fun x y => key y ≤ key x)
      (List.insertionSort (fun x y => key y ≤ key x) l) :=
    @List.sorted_insertionSort α _ _ htot htr l
  refine ⟨List.length_take_le n _, ?_, ?_, ?_⟩
  · exact List.Pairwise.sublist (List.take_sublist _ _) hsorted
  · intro c
    obtain ⟨m, hm⟩ := filter_take (fun x => decide (key x = c))
      (List.insertionSort (fun x y => key y ≤ key x) l) n
    refine ⟨m, ?_⟩
    unfold nlargestBy
    rw [hm, filter_insertionSort]
  · have hsl : List.Sorted (fun x y => key y ≤ key x) (nlargestBy key n l) :=
      List.Pairwise.sublist (List.take_sublist _ _) hsorted
    show (List.insertionSort _ (nlargestBy key n l)).take n2 = _
    rw [List.Sorted.insertionSort_eq hsl]
    exact List.take_of_length_le (le_trans (List.length_take_le _ _) h)

/-- Witness for C5 on a concrete list with a tie. -/
theorem claim_C5_witness :
    2 ≤ 3 ∧
      ((nlargestBy (fun q : Rat => q) 2 [1, 3, 3, 2]).length ≤ 2 ∧
        List.Pairwise (fun a b : Rat => b ≤ a)
          (nlargestBy (fun q : Rat => q) 2 [1, 3, 3, 2]) ∧
        (∀ c : Rat, ∃ m,
          (nlargestBy (fun q : Rat => q) 2 [1, 3, 3, 2]).filter
              (fun x => decide (x = c))
            = (([1, 3, 3, 2] : List Rat).filter
                (fun x => decide (x = c))).take m) ∧
        nlargestBy (fun q : Rat => q) 3 (nlargestBy (fun q : Rat => q) 2 [1, 3, 3, 2])
          = nlargestBy (fun q : Rat => q) 2 [1, 3, 3, 2]) :=
  ⟨by norm_num, claim_C5 (fun q : Rat => q) 2 3 [1, 3, 3, 2] (by norm_num)⟩

/-- C6: exporting the filtered view with to_csv and re-ingesting the
export through the loader reproduces the filtered view exactly: same row
count and same cell values (number formatting is inverted by the numeric
coercion, and the location column is re-derived to the same values). -/
theorem claim_C6 (c : Csv) (crit : Criteria) (f : Frame)
    (hrect : ∀ r ∈ c.records, r.length = c.header.length)
    (h : load_data c = some f) :
    load_data (to_csv (filter_df f crit)) = some (filter_df f crit) :=
  load_data_to_csv _ (filter_df_inv crit (load_data_inv hrect h))

/-- Witness for C6 on a concrete upload (with a location match, a NaN from
a bad occurrences value, and a fractional amount) and a filter that keeps
one of the two rows. -/
theorem claim_C6_witness :
    (∀ r ∈ (⟨["merchant_name", "device_name", "masked_card_no",
        "occurrences", "total_amount"],
        [["Cafe NY", "d1", "c1", "2", "100"],
         ["B", "d2", "c2", "bad", "12.5"]]⟩ : Csv).records,
      r.length = (⟨["merchant_name", "device_name", "masked_card_no",
        "occurrences", "total_amount"],
        [["Cafe NY", "d1", "c1", "2", "100"],
         ["B", "d2", "c2", "bad", "12.5"]]⟩ : Csv).header.length) ∧
      load_data ⟨["merchant_name", "device_name", "masked_card_no",
          "occurrences", "total_amount"],
          [["Cafe NY", "d1", "c1", "2", "100"],
           ["B", "d2", "c2", "bad", "12.5"]]⟩
        = some ⟨["merchant_name", "device_name", "masked_card_no",
          "occurrences", "total_amount", "location"],
          [[Cell.str "Cafe NY", Cell.str "d1", Cell.str "c1", Cell.num 2,
            Cell.num 100, Cell.str "NY"],
           [Cell.str "B", Cell.str "d2", Cell.str "c2", Cell.na,
            Cell.num (mkRat 25 2), Cell.str "B"]]⟩ ∧
      load_data (to_csv (filter_df ⟨["merchant_name", "device_name",
          "masked_card_no", "occurrences", "total_amount", "location"],
          [[Cell.str "Cafe NY", Cell.str "d1", Cell.str "c1", Cell.num 2,
            Cell.num 100, Cell.str "NY"],
           [Cell.str "B", Cell.str "d2", Cell.str "c2", Cell.na,
            Cell.num (mkRat 25 2), Cell.str "B"]]⟩ ⟨[], [], 0, 50, 1⟩))
        = some (filter_df ⟨["merchant_name", "device_name",
          "masked_card_no", "occurrences", "total_amount", "location"],
          [[Cell.str "Cafe NY", Cell.str "d1", Cell.str "c1", Cell.num 2,
            Cell.num 100, Cell.str "NY"],
           [Cell.str "B", Cell.str "d2", Cell.str "c2", Cell.na,
            Cell.num (mkRat 25 2), Cell.str "B"]]⟩ ⟨[], [], 0, 50, 1⟩) :=
  ⟨by decide, by decide,
    claim_C6 ⟨["merchant_name", "device_name", "masked_card_no",
        "occurrences", "total_amount"],
        [["Cafe NY", "d1", "c1", "2", "100"],
         ["B", "d2", "c2", "bad", "12.5"]]⟩
      ⟨[], [], 0, 50, 1⟩
      ⟨["merchant_name", "device_name", "masked_card_no",
          "occurrences", "total_amount", "location"],
          [[Cell.str "Cafe NY", Cell.str "d1", Cell.str "c1", Cell.num 2,
            Cell.num 100, Cell.str "NY"],
           [Cell.str "B", Cell.str "d2", Cell.str "c2", Cell.na,
            Cell.num (mkRat 25 2), Cell.str "B"]]⟩
      (by decide) (by decide)⟩

/-- C7: the amount-range filter keeps a row whose total_amount is the
numeric value q exactly when lo is at most q and q is at most hi, both
bounds included. -/
theorem claim_C7 (f : Frame) (lo hi : Int) (r : List Cell) (q : Rat)
    (hq : f.cellAt r "total_amount" = Cell.num q) :
    r ∈ (amountFilter f lo hi).rows ↔
      r ∈ f.rows ∧ (lo : Rat) ≤ q ∧ q ≤ (hi : Rat) := by
  unfold amountFilter
  rw [List.mem_filter, hq]
  unfold betweenCell
  simp

/-- Witness for C7: a row with amount exactly at the upper bound is
retained. -/
theorem claim_C7_witness :
    [Cell.str "A", Cell.num 5] ∈
        (amountFilter ⟨["merchant_name", "total_amount"],
          [[Cell.str "A", Cell.num 5]]⟩ 1 5).rows ↔
      [Cell.str "A", Cell.num 5] ∈
          (⟨["merchant_name", "total_amount"],
            [[Cell.str "A", Cell.num 5]]⟩ : Frame).rows ∧
        ((1 : Int) : Rat) ≤ 5 ∧ (5 : Rat) ≤ ((5 : Int) : Rat) :=
  claim_C7 _ 1 5 _ 5 rfl

/-- C10: every row of the filtered view has a non-missing numeric
total_amount and a non-missing numeric occurrences value, under every
filter criteria: a missing value satisfies neither the range test nor the
threshold comparison, so such rows are always excluded. -/
theorem claim_C10 (f : Frame) (c : Criteria) (r : List Cell)
    (h : r ∈ (filter_df f c).rows) :
    (∃ q, f.cellAt r "total_amount" = Cell.num q) ∧
      (∃ q, f.cellAt r "occurrences" = Cell.num q) := by
  obtain ⟨-, hb, hg⟩ := mem_filter_df h
  constructor
  · cases hc : f.cellAt r "total_amount" with
    | num q => exact ⟨q, rfl⟩
    | str s => rw [hc] at hb; exact absurd hb (by simp [betweenCell])
    | na => rw [hc] at hb; exact absurd hb (by simp [betweenCell])
  · cases hc : f.cellAt r "occurrences" with
    | num q => exact ⟨q, rfl⟩
    | str s => rw [hc] at hg; exact absurd hg (by simp [geCell])
    | na => rw [hc] at hg; exact absurd hg (by simp [geCell])

/-- Witness for C10 at a concrete filtered dataframe. -/
theorem claim_C10_witness :
    (∃ q, Frame.cellAt ⟨["merchant_name", "occurrences", "total_amount"],
        [[Cell.str "A", Cell.num 2, Cell.num 7]]⟩
        [Cell.str "A", Cell.num 2, Cell.num 7] "total_amount" = Cell.num q) ∧
      (∃ q, Frame.cellAt ⟨["merchant_name", "occurrences", "total_amount"],
          [[Cell.str "A", Cell.num 2, Cell.num 7]]⟩
          [Cell.str "A", Cell.num 2, Cell.num 7] "occurrences" = Cell.num q) :=
  claim_C10 ⟨["merchant_name", "occurrences", "total_amount"],
      [[Cell.str "A", Cell.num 2, Cell.num 7]]⟩
    ⟨[], [], 0, 10, 1⟩ [Cell.str "A", Cell.num 2, Cell.num 7] (by decide)

end Dashboard
